import Mathlib

/-!
Shallow embedding of the ghost-invaders game core (TypeScript sources:
`Game.ts`, `Ghost.ts`, `Projectile.ts`, `Player.ts`, `effects/VisualEffect.ts`).

Conventions of the embedding:
* JS `number` values used for geometry and time are modelled as `ℚ`;
  score / lives / ghostsDestroyed / hitPoints are modelled as `ℤ`.
* JS object identity (`===` on ghosts) is modelled by a numeric `id` field
  assigned at spawn time.
* `Math.sqrt (dx^2 + dy^2) <= r` is embedded as `dx^2 + dy^2 <= r^2`,
  which is equivalent whenever `r ≥ 0` (all blast radii in the game are
  nonnegative multiples of the screen scale).
* `Math.floor (x / 100)` on integers is `Int.fdiv x 100`.
* Purely cosmetic state that no gameplay logic ever reads (star layers,
  canvas contexts, colors of effects, sound calls, UI flags) is omitted.
* `performance.now()` read inside the update tick is the tick's
  `currentTime` argument.
-/

namespace GhostInvaders

/-- 2-d vector, `Vector2D` of `types.ts`. -/
structure Vec2 where
  x : ℚ
  y : ℚ
deriving DecidableEq, Repr

/-- `GameState` of `types.ts`. -/
inductive GameState where
  | menu
  | playing
  | paused
  | gameOver
deriving DecidableEq, Repr

/-- `GhostType` of `Ghost.ts` as imported by `Game.ts` (includes `boss`). -/
inductive GhostType where
  | normal
  | special
  | rainbow
  | boss
deriving DecidableEq, Repr

/-- Ghost entity state, `Ghost.ts`.  The `id` field models JS object
identity (used by the `ghost === rainbowGhost` test). -/
structure Ghost where
  id : Nat
  position : Vec2
  velocity : Vec2
  width : ℚ
  height : ℚ
  baseSpeed : ℚ
  evasionSpeed : ℚ
  isEvading : Bool
  evasionDirection : ℚ
  hitPoints : ℤ
  maxHitPoints : ℤ
  variant : GhostType
deriving DecidableEq, Repr

/-- Modelled from the spec: the `boss` branch of the `Ghost` constructor is
not in the snapshot (`src/src/Ghost.ts` declares only normal/special/rainbow
while `Game.ts` imports a `GhostType` that includes `boss`).  Spec §4.1 table:
boss is 4× size (160 base units) and is treated as single-hit-destroy
(hit points 1); its speed multiplier is listed as "variable", so the default
base speed of the constructor is kept. -/
def bossWidth : ℚ := 160

/-- Modelled from the spec: boss height, 4× the 40-unit normal ghost. -/
def bossHeight : ℚ := 160

/-- Modelled from the spec: boss hit points — "treated as
single-hit-destroy, then chains". -/
def bossHitPoints : ℤ := 1

/-- The `Ghost` constructor (`Ghost.ts`, lines 22–56), plus the
spec-modelled boss branch.  Random color selection is cosmetic and omitted. -/
def Ghost.create (id : Nat) (x y : ℚ) (t : GhostType) : Ghost :=
  let (w, h, hp, speed) : ℚ × ℚ × ℤ × ℚ :=
    match t with
    | .rainbow => (120, 120, 3, 100)
    | .special => (80, 80, 2, 75)
    | .boss => (bossWidth, bossHeight, bossHitPoints, 50)
    | .normal => (40, 40, 1, 50)
  { id := id
    position := ⟨x, y⟩
    velocity := ⟨0, speed⟩
    width := w
    height := h
    baseSpeed := speed
    evasionSpeed := 100
    isEvading := false
    evasionDirection := 0
    hitPoints := hp
    maxHitPoints := hp
    variant := t }

/-- `Ghost.startEvasion`. -/
def Ghost.startEvasion (g : Ghost) (projectileX : ℚ) : Ghost :=
  { g with isEvading := true
           evasionDirection := if g.position.x > projectileX then 1 else -1 }

/-- `Ghost.stopEvasion`. -/
def Ghost.stopEvasion (g : Ghost) : Ghost :=
  { g with isEvading := false
           velocity := ⟨0, g.velocity.y⟩ }

/-- `Ghost.update`: adopt the evasion velocity if evading, then integrate. -/
def Ghost.update (g : Ghost) (deltaTime : ℚ) : Ghost :=
  let v : Vec2 :=
    if g.isEvading then ⟨g.evasionSpeed * g.evasionDirection, g.velocity.y⟩
    else g.velocity
  { g with velocity := v
           position := ⟨g.position.x + v.x * deltaTime, g.position.y + v.y * deltaTime⟩ }

/-- `Ghost.takeDamage` (`Ghost.ts`, lines 78–102): decrement hit points;
a surviving rainbow/special ghost shrinks; returns the destroyed flag. -/
def Ghost.takeDamage (g : Ghost) : Ghost × Bool :=
  let hp := g.hitPoints - 1
  if hp > 0 then
    let g' := { g with hitPoints := hp }
    let g' :=
      if g.variant = .rainbow then
        if hp = 2 then { g' with width := 80, height := 80 }
        else if hp = 1 then { g' with width := 40, height := 40 }
        else g'
      else if g.variant = .special then { g' with width := 40, height := 40 }
      else g'
    (g', false)
  else
    ({ g with hitPoints := hp }, true)

/-- Projectile entity, `Projectile.ts`.  The constructor sets
`velocity = (0, -speed)`; `Game.shoot` later rescales `speed` but not the
already-computed velocity, so both fields are kept. -/
structure Projectile where
  position : Vec2
  velocity : Vec2
  width : ℚ
  height : ℚ
  speed : ℚ
deriving DecidableEq, Repr

/-- The `Projectile` constructor. -/
def Projectile.create (x y : ℚ) : Projectile :=
  { position := ⟨x, y⟩, velocity := ⟨0, -500⟩, width := 4, height := 15, speed := 500 }

/-- `Projectile.update`. -/
def Projectile.update (p : Projectile) (deltaTime : ℚ) : Projectile :=
  { p with position := ⟨p.position.x, p.position.y + p.velocity.y * deltaTime⟩ }

/-- `Projectile.isOffScreen`. -/
def Projectile.isOffScreen (p : Projectile) : Bool :=
  decide (p.position.y < -p.height)

/-- Player entity, `Player.ts` (movement-relevant fields only). -/
structure Player where
  position : Vec2
  velocity : Vec2
  width : ℚ
  height : ℚ
  speed : ℚ
deriving DecidableEq, Repr

/-- The `Player` constructor. -/
def Player.create (x y : ℚ) : Player :=
  { position := ⟨x, y⟩, velocity := ⟨0, 0⟩, width := 60, height := 40, speed := 600 }

/-- `Player.moveLeft`. -/
def Player.moveLeft (p : Player) : Player :=
  { p with velocity := ⟨-p.speed, p.velocity.y⟩ }

/-- `Player.moveRight`. -/
def Player.moveRight (p : Player) : Player :=
  { p with velocity := ⟨p.speed, p.velocity.y⟩ }

/-- `Player.stop`. -/
def Player.stop (p : Player) : Player :=
  { p with velocity := ⟨0, p.velocity.y⟩ }

/-- `Player.update`: horizontal integration only. -/
def Player.update (p : Player) (deltaTime : ℚ) : Player :=
  { p with position := ⟨p.position.x + p.velocity.x * deltaTime, p.position.y⟩ }

/-- Visual effects, `effects/VisualEffect.ts`: the gameplay-visible state of
`NukeEffect` (duration 1.5 s) and `ExplosionEffect` (duration 1.0 s, set to
0.3 s for the non-lethal-hit variant).  Particle kinematics and colors are
cosmetic and omitted. -/
inductive VisualEffect where
  | nuke (position : Vec2) (maxRadius : ℚ) (duration elapsed : ℚ) (isComplete : Bool)
  | explosion (position : Vec2) (duration elapsed : ℚ) (isComplete : Bool)
deriving DecidableEq, Repr

/-- `NukeEffect` constructor. -/
def VisualEffect.newNuke (position : Vec2) (maxRadius : ℚ) : VisualEffect :=
  .nuke position maxRadius (3/2) 0 false

/-- `ExplosionEffect` constructor (default duration 1.0 s). -/
def VisualEffect.newExplosion (position : Vec2) : VisualEffect :=
  .explosion position 1 0 false

/-- `isComplete` of a visual effect. -/
def VisualEffect.isComplete : VisualEffect → Bool
  | .nuke _ _ _ _ c => c
  | .explosion _ _ _ c => c

/-- The `update` methods of the two effects: accumulate elapsed time and set
the completion flag once the duration is reached. -/
def VisualEffect.tick (e : VisualEffect) (deltaTime : ℚ) : VisualEffect :=
  match e with
  | .nuke pos r dur el c =>
      let el' := el + deltaTime
      if el' / dur ≥ 1 then .nuke pos r dur el' true else .nuke pos r dur el' c
  | .explosion pos dur el c =>
      let el' := el + deltaTime
      if el' ≥ dur then .explosion pos dur el' true else .explosion pos dur el' c

/-- Squared Euclidean distance.  The source computes
`Math.sqrt (dx^2 + dy^2)` and compares it with a radius `r`; every in-range
test below therefore compares `dist2 ≤ r^2`, equivalent for `r ≥ 0`. -/
def dist2 (a b : Vec2) : ℚ :=
  (a.x - b.x) ^ 2 + (a.y - b.y) ^ 2

/-- The keyboard keys `Game.handleInput` consults. -/
structure Keys where
  arrowLeft : Bool
  arrowRight : Bool
  space : Bool
  nKey : Bool
deriving DecidableEq, Repr

/-- Per-tick random draws consumed by the (up to five) spawn sites of
`Game.update`; each stands for one `Math.random()` result. -/
structure SpawnRand where
  normalR : ℚ
  specialR : ℚ
  rainbowR : ℚ
  bossR : ℚ
  forcedR : ℚ
deriving DecidableEq, Repr

/-- The game state owned by `Game` (`Game.ts`), gameplay-relevant fields. -/
structure Game where
  width : ℚ
  height : ℚ
  scale : ℚ
  player : Player
  ghosts : List Ghost
  projectiles : List Projectile
  visualEffects : List VisualEffect
  state : GameState
  score : ℤ
  lives : ℤ
  ghostsDestroyed : ℤ
  lastTime : ℚ
  lastShot : ℚ
  shotCooldown : ℚ
  ghostSpawnTimer : ℚ
  ghostSpawnInterval : ℚ
  specialGhostTimer : ℚ
  specialGhostInterval : ℚ
  rainbowGhostTimer : ℚ
  rainbowGhostInterval : ℚ
  bossGhostTimer : ℚ
  bossGhostInterval : ℚ
  forceBossSpawn : Bool
  forceBossSpawnTimer : ℚ
  keys : Keys
  lastNuke : ℚ
  nukeCooldown : ℚ
  nukeReady : Bool
  lifeLostTime : ℚ
  isMobile : Bool
  isMovingLeft : Bool
  isMovingRight : Bool
  nextGhostId : Nat

/-- `Game.checkProjectileGhostCollision` (lines 647–652). -/
def Game.checkProjectileGhostCollision (p : Projectile) (g : Ghost) : Bool :=
  decide (p.position.x ≥ g.position.x - g.width / 2) &&
  decide (p.position.x ≤ g.position.x + g.width / 2) &&
  decide (p.position.y ≤ g.position.y + g.height / 2) &&
  decide (p.position.y + p.height ≥ g.position.y - g.height / 2)

/-- `Game.checkGhostPlayerCollision` (lines 654–660). -/
def Game.checkGhostPlayerCollision (g : Ghost) (player : Player) : Bool :=
  let dx := |g.position.x - player.position.x|
  let dy := |g.position.y - player.position.y|
  decide (dx < (g.width + player.width) / 2) &&
  decide (dy < (g.height + player.height) / 2)

/-- `Game.shoot` (lines 502–514): a projectile at the player position,
rescaled (note: the already-computed velocity is not rescaled). -/
def Game.shoot (game : Game) : Game :=
  let projectile := Projectile.create game.player.position.x game.player.position.y
  let projectile := { projectile with
    width := projectile.width * game.scale
    height := projectile.height * game.scale
    speed := projectile.speed * game.scale }
  { game with projectiles := game.projectiles ++ [projectile] }

/-- `Game.fireNuke` (lines 516–548), one ghost of the filter pass. -/
structure ChainState where
  kept : List Ghost
  score : ℤ
  lives : ℤ
  ghostsDestroyed : ℤ
  visualEffects : List VisualEffect

/-- One step of the `fireNuke` ghost filter: destroy the ghost when inside
the blast radius (+50 points, counted kill, life-recovery check). -/
def Game.nukeStep (playerPos : Vec2) (blastRadius : ℚ) (st : ChainState) (g : Ghost) :
    ChainState :=
  if dist2 g.position playerPos ≤ blastRadius ^ 2 then
    let gd := st.ghostsDestroyed + 1
    { kept := st.kept
      score := st.score + 50
      lives := if gd % 100 = 0 then st.lives + 1 else st.lives
      ghostsDestroyed := gd
      visualEffects := st.visualEffects ++ [VisualEffect.newExplosion g.position] }
  else
    { st with kept := st.kept ++ [g] }

/-- `Game.fireNuke` (lines 516–548): always push the nuke effect, then
remove every ghost within half the screen height of the player. -/
def Game.fireNuke (game : Game) : Game :=
  let blastRadius := game.height / 2
  let st0 : ChainState :=
    { kept := []
      score := game.score
      lives := game.lives
      ghostsDestroyed := game.ghostsDestroyed
      visualEffects := game.visualEffects ++ [VisualEffect.newNuke game.player.position blastRadius] }
  let st := game.ghosts.foldl (Game.nukeStep game.player.position blastRadius) st0
  { game with
    ghosts := st.kept
    score := st.score
    lives := st.lives
    ghostsDestroyed := st.ghostsDestroyed
    visualEffects := st.visualEffects }

/-- `Game.handleInput` (lines 466–500): movement intent, cooldown-gated
shooting, and the nuke action (which also resets the nuke cooldown). -/
def Game.handleInput (game : Game) (currentTime : ℚ) : Game :=
  let game :=
    if game.isMobile then
      if game.isMovingLeft then
        { game with player := { game.player with
            velocity := ⟨-(game.player.speed * (3/2)), game.player.velocity.y⟩ } }
      else if game.isMovingRight then
        { game with player := { game.player with
            velocity := ⟨game.player.speed * (3/2), game.player.velocity.y⟩ } }
      else { game with player := game.player.stop }
    else
      if game.keys.arrowLeft then { game with player := game.player.moveLeft }
      else if game.keys.arrowRight then { game with player := game.player.moveRight }
      else { game with player := game.player.stop }
  let game :=
    if game.keys.space && decide (currentTime - game.lastShot ≥ game.shotCooldown) then
      { game.shoot with lastShot := currentTime }
    else game
  if game.keys.nKey && game.nukeReady then
    { game.fireNuke with lastNuke := currentTime, nukeReady := false }
  else game

/-- `Game.spawnGhost` (lines 550–566). -/
def Game.spawnGhost (game : Game) (r : ℚ) (t : GhostType) : Game :=
  let baseSize : ℚ :=
    match t with
    | .normal => 40
    | .special => 80
    | .rainbow => 120
    | .boss => 160
  let x := r * (game.width - baseSize * game.scale) + (baseSize / 2) * game.scale
  let g := Ghost.create game.nextGhostId x (-(baseSize * game.scale)) t
  let g := { g with
    width := g.width * game.scale
    height := g.height * game.scale
    baseSpeed := g.baseSpeed * game.scale
    evasionSpeed := g.evasionSpeed * game.scale }
  { game with ghosts := game.ghosts ++ [g], nextGhostId := game.nextGhostId + 1 }

/-- The per-ghost body of the ghost update loop in `Game.update`
(lines 369–393): integrate, then search the projectiles for a nearby threat
and start/stop evasion, then clamp to the horizontal bounds (flipping the
evasion direction on wall contact). -/
def Game.ghostPhase (projectiles : List Projectile) (width deltaTime : ℚ) (g : Ghost) :
    Ghost :=
  let g : Ghost := g.update deltaTime
  let nearby := projectiles.find? fun p =>
    decide (|p.position.x - g.position.x| < 100) &&
    decide (p.position.y < g.position.y) &&
    decide (p.position.y > g.position.y - 200)
  let g : Ghost :=
    match nearby with
    | some p => g.startEvasion p.position.x
    | none => g.stopEvasion
  if g.position.x < g.width / 2 then
    { g with position := ⟨g.width / 2, g.position.y⟩
             evasionDirection := -g.evasionDirection }
  else if g.position.x > width - g.width / 2 then
    { g with position := ⟨width - g.width / 2, g.position.y⟩
             evasionDirection := -g.evasionDirection }
  else g

/-- The per-destruction point values of `Game.checkCollisions`
(lines 586–594). -/
def Game.destroyPoints : GhostType → ℤ
  | .rainbow => 20
  | .special => 50
  | .boss => 100
  | .normal => 10

/-- The chain-explosion marks collected during the collision pass
(lines 570–571): rainbow ghosts queue up, the boss mark is a single slot. -/
structure CollisionMarks where
  rainbowGhostsToExplode : List Ghost
  bossGhostToExplode : Option Ghost

/-- Accumulator of the inner ghost filter of `Game.checkCollisions` for one
projectile: the kept ghosts, the mutated session counters, and the
projectile's `hit` flag. -/
structure HitState where
  kept : List Ghost
  score : ℤ
  lives : ℤ
  ghostsDestroyed : ℤ
  visualEffects : List VisualEffect
  marks : CollisionMarks
  hit : Bool

/-- One ghost of the inner filter of `Game.checkCollisions` (lines 575–633):
on overlap the ghost takes damage; a destroyed ghost scores its destroy
points, is counted, may trigger the 100-kill life recovery, and is marked
for rainbow/boss chaining; a survivor scores hit points and shrinks
(inside `takeDamage`); either way the projectile's hit flag is set. -/
def Game.hitGhostStep (p : Projectile) (st : HitState) (g : Ghost) : HitState :=
  if Game.checkProjectileGhostCollision p g then
    let r := g.takeDamage
    if r.2 then
      let gd := st.ghostsDestroyed + 1
      { kept := st.kept
        score := st.score + Game.destroyPoints g.variant
        lives := if gd % 100 = 0 then st.lives + 1 else st.lives
        ghostsDestroyed := gd
        visualEffects := st.visualEffects ++ [VisualEffect.newExplosion g.position]
        marks :=
          { rainbowGhostsToExplode :=
              if g.variant = .rainbow then st.marks.rainbowGhostsToExplode ++ [r.1]
              else st.marks.rainbowGhostsToExplode
            bossGhostToExplode :=
              if g.variant = .boss then some r.1 else st.marks.bossGhostToExplode }
        hit := true }
    else
      { st with
        kept := st.kept ++ [r.1]
        score := st.score + (if g.variant = .rainbow then 30 else 25)
        visualEffects := st.visualEffects ++ [.explosion g.position (3/10) 0 false]
        hit := true }
  else
    { st with kept := st.kept ++ [g] }

/-- Accumulator of the outer projectile filter of `Game.checkCollisions`. -/
structure PassState where
  ghosts : List Ghost
  keptProjectiles : List Projectile
  score : ℤ
  lives : ℤ
  ghostsDestroyed : ℤ
  visualEffects : List VisualEffect
  marks : CollisionMarks

/-- One projectile of the outer filter of `Game.checkCollisions`: run the
inner ghost filter with a fresh `hit` flag; the projectile is kept only if
it hit nothing. -/
def Game.projectilePass (ps : PassState) (p : Projectile) : PassState :=
  let st0 : HitState :=
    { kept := []
      score := ps.score
      lives := ps.lives
      ghostsDestroyed := ps.ghostsDestroyed
      visualEffects := ps.visualEffects
      marks := ps.marks
      hit := false }
  let st := ps.ghosts.foldl (Game.hitGhostStep p) st0
  { ghosts := st.kept
    keptProjectiles := ps.keptProjectiles ++ (if st.hit then [] else [p])
    score := st.score
    lives := st.lives
    ghostsDestroyed := st.ghostsDestroyed
    visualEffects := st.visualEffects
    marks := st.marks }

/-- One ghost of the `handleRainbowGhostExplosion` filter (lines 852–874):
skip the rainbow ghost itself (object identity), destroy any other ghost
within the blast radius (+10 points, counted kill, per-kill life-recovery
check). -/
def Game.rainbowChainStep (rainbowGhost : Ghost) (blastRadius : ℚ)
    (st : ChainState) (g : Ghost) : ChainState :=
  if g.id = rainbowGhost.id then { st with kept := st.kept ++ [g] }
  else if dist2 g.position rainbowGhost.position ≤ blastRadius ^ 2 then
    let gd := st.ghostsDestroyed + 1
    { kept := st.kept
      score := st.score + 10
      lives := if gd % 100 = 0 then st.lives + 1 else st.lives
      ghostsDestroyed := gd
      visualEffects := st.visualEffects ++ [VisualEffect.newExplosion g.position] }
  else
    { st with kept := st.kept ++ [g] }

/-- `Game.handleRainbowGhostExplosion` (lines 847–875). -/
def Game.handleRainbowGhostExplosion (game : Game) (rainbowGhost : Ghost) : Game :=
  let blastRadius := 150 * game.scale
  let st0 : ChainState :=
    { kept := []
      score := game.score
      lives := game.lives
      ghostsDestroyed := game.ghostsDestroyed
      visualEffects := game.visualEffects }
  let st := game.ghosts.foldl (Game.rainbowChainStep rainbowGhost blastRadius) st0
  { game with
    ghosts := st.kept
    score := st.score
    lives := st.lives
    ghostsDestroyed := st.ghostsDestroyed
    visualEffects := st.visualEffects }

/-- `Game.handleBossGhostExplosion` (lines 877–905): push a nuke effect and
one explosion per remaining ghost, remove every ghost, add 20 points per
chained ghost, count them, and grant the aggregate life recovery
`⌊gd'/100⌋ - ⌊gd/100⌋`. -/
def Game.handleBossGhostExplosion (game : Game) (bossGhost : Ghost) : Game :=
  let blastRadius := max game.width game.height * (8/10)
  let destroyedCount : ℤ := game.ghosts.length
  let gd := game.ghostsDestroyed + destroyedCount
  let livesGained := Int.fdiv gd 100 - Int.fdiv (gd - destroyedCount) 100
  { game with
    ghosts := []
    visualEffects := game.visualEffects
      ++ [VisualEffect.newNuke bossGhost.position blastRadius]
      ++ game.ghosts.map (fun g => VisualEffect.newExplosion g.position)
    score := game.score + destroyedCount * 20
    ghostsDestroyed := gd
    lives := if livesGained > 0 then game.lives + livesGained else game.lives }

/-- The trailing boss dispatch of `Game.checkCollisions` (lines 642–644):
run the boss explosion when a destroyed boss was marked. -/
def Game.runBossExplosion (game : Game) : Option Ghost → Game
  | some b => game.handleBossGhostExplosion b
  | none => game

/-- The nested projectile/ghost filter section of `Game.checkCollisions`
(lines 570–635), as a fold over the projectiles. -/
def Game.collisionPass (game : Game) : PassState :=
  game.projectiles.foldl Game.projectilePass
    { ghosts := game.ghosts
      keptProjectiles := []
      score := game.score
      lives := game.lives
      ghostsDestroyed := game.ghostsDestroyed
      visualEffects := game.visualEffects
      marks := { rainbowGhostsToExplode := [], bossGhostToExplode := none } }

/-- `Game.checkCollisions` (lines 568–645): the nested projectile/ghost
filters, then the queued rainbow chains, then the (single) boss chain. -/
def Game.checkCollisions (game : Game) : Game :=
  let ps := game.collisionPass
  let game := { game with
    ghosts := ps.ghosts
    projectiles := ps.keptProjectiles
    score := ps.score
    lives := ps.lives
    ghostsDestroyed := ps.ghostsDestroyed
    visualEffects := ps.visualEffects }
  let game := ps.marks.rainbowGhostsToExplode.foldl Game.handleRainbowGhostExplosion game
  game.runBossExplosion ps.marks.bossGhostToExplode

/-- The escape condition of the bottom-edge/player-contact cull
(lines 437–463): the ghost's lower edge reached the bottom, or it touches
the player. -/
def Game.ghostLost (game : Game) (g : Ghost) : Bool :=
  decide (g.position.y + g.height / 2 ≥ game.height) ||
  Game.checkGhostPlayerCollision g game.player

/-- Accumulator of the bottom-edge/player-contact cull. -/
structure CullState where
  kept : List Ghost
  lives : ℤ
  lifeLostTime : ℚ
  state : GameState

/-- One ghost of the cull filter: a lost ghost costs one life, stamps the
cosmetic life-lost time, and triggers `gameOver` whenever the decrement
leaves `lives ≤ 0`. -/
def Game.cullStep (game : Game) (currentTime : ℚ) (st : CullState) (g : Ghost) :
    CullState :=
  if Game.ghostLost game g then
    let lives := st.lives - 1
    { kept := st.kept
      lives := lives
      lifeLostTime := currentTime
      state := if lives ≤ 0 then .gameOver else st.state }
  else
    { st with kept := st.kept ++ [g] }

/-- The final phase of `Game.update` (lines 437–463): cull ghosts that
escaped the bottom edge or touched the player. -/
def Game.cullEscapedGhosts (game : Game) (currentTime : ℚ) : Game :=
  let st := game.ghosts.foldl (Game.cullStep game currentTime)
    { kept := [], lives := game.lives, lifeLostTime := game.lifeLostTime,
      state := game.state }
  { game with
    ghosts := st.kept
    lives := st.lives
    lifeLostTime := st.lifeLostTime
    state := st.state }

/-- The nuke-availability step of `Game.update` (lines 335–341): once the
wall-clock cooldown has elapsed, assert the ready flag (the sound played on
the rising edge is an external side effect). -/
def Game.updateNukeReady (game : Game) (currentTime : ℚ) : Game :=
  if currentTime - game.lastNuke ≥ game.nukeCooldown then
    { game with nukeReady := true }
  else game

/-- Player advance and horizontal clamp (lines 346–354). -/
def Game.advancePlayer (game : Game) (deltaTime : ℚ) : Game :=
  let p := game.player.update deltaTime
  let p : Player :=
    if p.position.x < p.width / 2 then
      { p with position := ⟨p.width / 2, p.position.y⟩ }
    else if p.position.x > game.width - p.width / 2 then
      { p with position := ⟨game.width - p.width / 2, p.position.y⟩ }
    else p
  { game with player := p }

/-- Projectile advance-and-cull (lines 356–360). -/
def Game.advanceProjectiles (game : Game) (deltaTime : ℚ) : Game :=
  let ps := (game.projectiles.map (fun p => p.update deltaTime)).filter
    (fun p => !p.isOffScreen)
  { game with projectiles := ps }

/-- Visual-effect advance-and-cull (lines 362–366). -/
def Game.advanceVisualEffects (game : Game) (deltaTime : ℚ) : Game :=
  let es := (game.visualEffects.map (fun e => e.tick deltaTime)).filter
    (fun e => !e.isComplete)
  { game with visualEffects := es }

/-- Ghost advance, evasion targeting and clamping (lines 368–393). -/
def Game.advanceGhosts (game : Game) (deltaTime : ℚ) : Game :=
  let gs := game.ghosts.map (Game.ghostPhase game.projectiles game.width deltaTime)
  { game with ghosts := gs }

/-- Regular ghost spawn timer (lines 395–400). -/
def Game.tickGhostSpawn (game : Game) (deltaTime : ℚ) (r : ℚ) : Game :=
  let game := { game with ghostSpawnTimer := game.ghostSpawnTimer + deltaTime * 1000 }
  if game.ghostSpawnTimer ≥ game.ghostSpawnInterval then
    { game.spawnGhost r .normal with ghostSpawnTimer := 0 }
  else game

/-- Special ghost spawn timer (lines 402–407). -/
def Game.tickSpecialSpawn (game : Game) (deltaTime : ℚ) (r : ℚ) : Game :=
  let game := { game with specialGhostTimer := game.specialGhostTimer + deltaTime * 1000 }
  if game.specialGhostTimer ≥ game.specialGhostInterval then
    { game.spawnGhost r .special with specialGhostTimer := 0 }
  else game

/-- Rainbow ghost spawn timer (lines 409–414). -/
def Game.tickRainbowSpawn (game : Game) (deltaTime : ℚ) (r : ℚ) : Game :=
  let game := { game with rainbowGhostTimer := game.rainbowGhostTimer + deltaTime * 1000 }
  if game.rainbowGhostTimer ≥ game.rainbowGhostInterval then
    { game.spawnGhost r .rainbow with rainbowGhostTimer := 0 }
  else game

/-- Boss ghost spawn timer (lines 416–421). -/
def Game.tickBossSpawn (game : Game) (deltaTime : ℚ) (r : ℚ) : Game :=
  let game := { game with bossGhostTimer := game.bossGhostTimer + deltaTime * 1000 }
  if game.bossGhostTimer ≥ game.bossGhostInterval then
    { game.spawnGhost r .boss with bossGhostTimer := 0 }
  else game

/-- Forced boss spawn countdown (lines 423–431). -/
def Game.tickForcedBossSpawn (game : Game) (deltaTime : ℚ) (r : ℚ) : Game :=
  if game.forceBossSpawn then
    let game := { game with
      forceBossSpawnTimer := game.forceBossSpawnTimer - deltaTime * 1000 }
    if game.forceBossSpawnTimer ≤ 0 then
      { game.spawnGhost r .boss with forceBossSpawn := false, bossGhostTimer := 0 }
    else game
  else game

/-- `Game.update` (lines 331–464): nuke-ready edge, input, player advance
and clamp, projectile and effect advance-and-cull, ghost phase, the four
spawn timers and the forced boss spawn, collision resolution, and the
bottom/contact cull.  Star layers are purely cosmetic and omitted. -/
def Game.update (game : Game) (deltaTime currentTime : ℚ) (rnd : SpawnRand) : Game :=
  let game := game.updateNukeReady currentTime
  let game := game.handleInput currentTime
  let game := game.advancePlayer deltaTime
  let game := game.advanceProjectiles deltaTime
  let game := game.advanceVisualEffects deltaTime
  let game := game.advanceGhosts deltaTime
  let game := game.tickGhostSpawn deltaTime rnd.normalR
  let game := game.tickSpecialSpawn deltaTime rnd.specialR
  let game := game.tickRainbowSpawn deltaTime rnd.rainbowR
  let game := game.tickBossSpawn deltaTime rnd.bossR
  let game := game.tickForcedBossSpawn deltaTime rnd.forcedR
  let game := game.checkCollisions
  game.cullEscapedGhosts currentTime

/-- `Game.togglePause` (lines 304–311). -/
def Game.togglePause (game : Game) : Game :=
  if game.state = .playing then { game with state := .paused }
  else if game.state = .paused then { game with state := .playing }
  else game

/-- One invocation of `Game.gameLoop` (lines 318–329): compute the
wall-clock delta, remember the frame time, and run `update` only while
playing (rendering is side-effect-free on this state). -/
def Game.gameLoopStep (game : Game) (currentTime : ℚ) (rnd : SpawnRand) : Game :=
  let deltaTime := (currentTime - game.lastTime) / 1000
  let game := { game with lastTime := currentTime }
  if game.state = .playing then game.update deltaTime currentTime rnd
  else game

/-- Stated from the claim for comparison with `Game.ghostPhase`: the
per-ghost frame order the spec asserts — evasion update first (at the
ghost's pre-integration position), then position integration, then the
clamp.  The source runs integration first. -/
def Game.ghostPhaseSpecOrder (projectiles : List Projectile) (width deltaTime : ℚ)
    (g : Ghost) : Ghost :=
  let nearby := projectiles.find? fun p =>
    decide (|p.position.x - g.position.x| < 100) &&
    decide (p.position.y < g.position.y) &&
    decide (p.position.y > g.position.y - 200)
  let g : Ghost :=
    match nearby with
    | some p => g.startEvasion p.position.x
    | none => g.stopEvasion
  let g : Ghost := g.update deltaTime
  if g.position.x < g.width / 2 then
    { g with position := ⟨g.width / 2, g.position.y⟩
             evasionDirection := -g.evasionDirection }
  else if g.position.x > width - g.width / 2 then
    { g with position := ⟨width - g.width / 2, g.position.y⟩
             evasionDirection := -g.evasionDirection }
  else g

/-- The hit-point invariant relative to an original ghost population: the
ghost satisfies `0 < hitPoints ≤ maxHitPoints` and descends from an
original ghost (same identity, hit points only decreased, maximum
unchanged). -/
def derivedGhostInv (gs : List Ghost) (x : Ghost) : Prop :=
  (0 < x.hitPoints ∧ x.hitPoints ≤ x.maxHitPoints) ∧
  ∃ g ∈ gs, x.id = g.id ∧ x.hitPoints ≤ g.hitPoints ∧
    x.maxHitPoints = g.maxHitPoints

/-! ### Concrete states for witnesses and counterexamples -/

/-- A non-evading normal ghost in mid-screen. -/
def evadeTestGhost : Ghost := Ghost.create 0 400 300 .normal

/-- A projectile just below-left of `evadeTestGhost`, inside its evasion
search band. -/
def evadeTestProjectile : Projectile := Projectile.create 390 200

/-- A fixed (dummy) randomness source for concrete ticks. -/
def rnd0 : SpawnRand := ⟨0, 0, 0, 0, 0⟩

/-- A concrete session state with the constructor's initial field values at
scale 1 on the reference 800×1200 screen. -/
def baseGame : Game :=
  { width := 800
    height := 1200
    scale := 1
    player := Player.create 400 1140
    ghosts := []
    projectiles := []
    visualEffects := []
    state := .playing
    score := 0
    lives := 3
    ghostsDestroyed := 0
    lastTime := 0
    lastShot := 0
    shotCooldown := 250
    ghostSpawnTimer := 0
    ghostSpawnInterval := 2000
    specialGhostTimer := 0
    specialGhostInterval := 30000
    rainbowGhostTimer := 0
    rainbowGhostInterval := 120000
    bossGhostTimer := 0
    bossGhostInterval := 180000
    forceBossSpawn := false
    forceBossSpawnTimer := 0
    keys := ⟨false, false, false, false⟩
    lastNuke := 0
    nukeCooldown := 60000
    nukeReady := false
    lifeLostTime := 0
    isMobile := false
    isMovingLeft := false
    isMovingRight := false
    nextGhostId := 2 }

/-- A state on the last life with two ghosts simultaneously at the bottom
edge. -/
def twoEscapedGame : Game :=
  { baseGame with
    lives := 1
    ghosts := [Ghost.create 0 100 1200 .normal, Ghost.create 1 300 1200 .normal] }

/-- A state with the nuke ready, key `n` held, and a single ghost far
outside the blast radius. -/
def nukeReadyGame : Game :=
  { baseGame with
    keys := ⟨false, false, false, true⟩
    nukeReady := true
    ghosts := [Ghost.create 0 400 100 .normal] }

/-- A paused session (paused at wall-clock 100 ms, shot fired at 0 ms,
space held). -/
def pausedGame : Game :=
  { baseGame with
    state := .paused
    lastTime := 100
    keys := ⟨false, false, true, false⟩ }

/-- The same session the instant it is unpaused (before its next frame). -/
def resumedGame : Game :=
  { pausedGame with
    state := .playing
    lastTime := 400 }

/-- A destroyed rainbow ghost (already removed from the list). -/
def rainbowTestGhost : Ghost := Ghost.create 5 400 600 .rainbow

/-- A state with one ghost inside and one outside the rainbow blast
radius. -/
def rainbowChainGame : Game :=
  { baseGame with
    ghosts := [Ghost.create 0 450 600 .normal, Ghost.create 1 400 100 .normal] }

/-- A state with one projectile overlapping a two-hit special ghost. -/
def hitTestGame : Game :=
  { baseGame with
    ghosts := [Ghost.create 0 400 300 .special]
    projectiles := [Projectile.create 400 290] }

/-- A projectile whose box overlaps both ghosts of `overlapGame`. -/
def overlapProjectile : Projectile := Projectile.create 400 290

/-- A state with one projectile overlapping two normal ghosts at once. -/
def overlapGame : Game :=
  { baseGame with
    ghosts := [Ghost.create 0 390 300 .normal, Ghost.create 1 410 300 .normal]
    projectiles := [overlapProjectile] }

/-- A freshly created boss ghost. -/
def bossTestGhost : Ghost := Ghost.create 2 400 300 .boss

/-- A projectile whose box overlaps `bossTestGhost` and no other ghost of
`bossChainGame`. -/
def bossTestProjectile : Projectile := Projectile.create 400 290

/-- A state where the single projectile hits the boss while two other
ghosts are on screen. -/
def bossChainGame : Game :=
  { baseGame with
    ghosts := [Ghost.create 0 100 300 .normal, bossTestGhost,
      Ghost.create 1 700 300 .normal]
    projectiles := [bossTestProjectile] }

/-! ### Helper lemmas -/

/-- Floor division by 100 agrees with Euclidean division. -/
lemma fdiv_hundred (a : ℤ) : Int.fdiv a 100 = a / 100 :=
  Int.fdiv_eq_ediv a (by norm_num)

/-- One kill moves `⌊gd/100⌋` up by one exactly on multiples of 100. -/
lemma fdiv_hundred_succ (a : ℤ) :
    Int.fdiv (a + 1) 100 = Int.fdiv a 100 + (if (a + 1) % 100 = 0 then 1 else 0) := by
  rw [fdiv_hundred, fdiv_hundred]
  split <;> omega

/-- Characterization of the bottom-edge/player-contact cull fold. -/
lemma cullFold_spec (game : Game) (currentTime : ℚ) :
    ∀ (gs : List Ghost) (st : CullState),
      (gs.foldl (Game.cullStep game currentTime) st).kept
          = st.kept ++ gs.filter (fun g => !Game.ghostLost game g) ∧
      (gs.foldl (Game.cullStep game currentTime) st).lives
          = st.lives - (gs.countP (Game.ghostLost game) : ℤ) ∧
      (gs.foldl (Game.cullStep game currentTime) st).lifeLostTime
          = (if gs.countP (Game.ghostLost game) = 0 then st.lifeLostTime else currentTime) ∧
      (gs.foldl (Game.cullStep game currentTime) st).state
          = (if 1 ≤ gs.countP (Game.ghostLost game) ∧
                st.lives - (gs.countP (Game.ghostLost game) : ℤ) ≤ 0
             then GameState.gameOver else st.state)
  | [], st => by simp
  | g :: gs, st => by
    rw [List.foldl_cons]
    by_cases h : Game.ghostLost game g
    · have hstep : Game.cullStep game currentTime st g =
          ⟨st.kept, st.lives - 1, currentTime,
            if st.lives - 1 ≤ 0 then .gameOver else st.state⟩ := by
        rw [Game.cullStep, if_pos h]
      rw [hstep]
      obtain ⟨hk, hl, ht, hs⟩ := cullFold_spec game currentTime gs
        ⟨st.kept, st.lives - 1, currentTime,
          if st.lives - 1 ≤ 0 then .gameOver else st.state⟩
      refine ⟨?_, ?_, ?_, ?_⟩
      · rw [hk]; simp [h]
      · rw [hl]; simp only [List.countP_cons, h, if_pos]; push_cast; ring
      · rw [ht]; simp [List.countP_cons, h]
      · rw [hs]; simp only [List.countP_cons, h, if_true]
        push_cast
        simp only [true_and, Nat.cast_nonneg, Nat.one_le_cast]
        split_ifs <;> first | rfl | omega
    · have hstep : Game.cullStep game currentTime st g =
          ⟨st.kept ++ [g], st.lives, st.lifeLostTime, st.state⟩ := by
        rw [Game.cullStep, if_neg h]
      rw [hstep]
      obtain ⟨hk, hl, ht, hs⟩ := cullFold_spec game currentTime gs
        ⟨st.kept ++ [g], st.lives, st.lifeLostTime, st.state⟩
      refine ⟨?_, ?_, ?_, ?_⟩
      · rw [hk]; simp [h]
      · rw [hl]; simp [List.countP_cons, h]
      · rw [ht]; simp [List.countP_cons, h]
      · rw [hs]; simp [List.countP_cons, h]

/-- Field-level characterization of `Game.cullEscapedGhosts`. -/
lemma cull_spec (game : Game) (currentTime : ℚ) :
    (game.cullEscapedGhosts currentTime).ghosts
        = game.ghosts.filter (fun g => !Game.ghostLost game g) ∧
    (game.cullEscapedGhosts currentTime).lives
        = game.lives - (game.ghosts.countP (Game.ghostLost game) : ℤ) ∧
    (game.cullEscapedGhosts currentTime).lifeLostTime
        = (if game.ghosts.countP (Game.ghostLost game) = 0 then game.lifeLostTime
           else currentTime) ∧
    (game.cullEscapedGhosts currentTime).state
        = (if 1 ≤ game.ghosts.countP (Game.ghostLost game) ∧
              game.lives - (game.ghosts.countP (Game.ghostLost game) : ℤ) ≤ 0
           then GameState.gameOver else game.state) := by
  obtain ⟨hk, hl, ht, hs⟩ := cullFold_spec game currentTime game.ghosts
    ⟨[], game.lives, game.lifeLostTime, game.state⟩
  exact ⟨by simpa [Game.cullEscapedGhosts] using hk,
         by simpa [Game.cullEscapedGhosts] using hl,
         by simpa [Game.cullEscapedGhosts] using ht,
         by simpa [Game.cullEscapedGhosts] using hs⟩

/-! ### C10 — escape/contact removals change only lives, the life-lost
timestamp and possibly the game state -/

/-- C10: in the bottom-edge/player-contact pass of every tick, each removed
ghost decrements `lives` by exactly 1 and stamps the cosmetic life-lost
timestamp; `score`, `ghostsDestroyed`, the player, the projectiles and the
visual effects are unchanged by such removals. -/
theorem cull_changes_only_lives (game : Game) (currentTime : ℚ) :
    (game.cullEscapedGhosts currentTime).score = game.score ∧
    (game.cullEscapedGhosts currentTime).ghostsDestroyed = game.ghostsDestroyed ∧
    (game.cullEscapedGhosts currentTime).lives
        = game.lives - (game.ghosts.countP (Game.ghostLost game) : ℤ) ∧
    (game.cullEscapedGhosts currentTime).ghosts
        = game.ghosts.filter (fun g => !Game.ghostLost game g) ∧
    (game.cullEscapedGhosts currentTime).projectiles = game.projectiles ∧
    (game.cullEscapedGhosts currentTime).player = game.player ∧
    (game.cullEscapedGhosts currentTime).visualEffects = game.visualEffects ∧
    (game.cullEscapedGhosts currentTime).lifeLostTime
        = (if game.ghosts.countP (Game.ghostLost game) = 0 then game.lifeLostTime
           else currentTime) := by
  obtain ⟨hk, hl, ht, _⟩ := cull_spec game currentTime
  exact ⟨rfl, rfl, hl, hk, rfl, rfl, rfl, ht⟩


/-- `destroyPoints` is positive for every variant. -/
lemma destroyPoints_pos (t : GhostType) : 0 < Game.destroyPoints t := by
  cases t <;> simp [Game.destroyPoints]

/-- The inner collision fold never decreases score or the kill counter. -/
lemma hitFold_counters (p : Projectile) :
    ∀ (gs : List Ghost) (st : HitState),
      st.score ≤ (gs.foldl (Game.hitGhostStep p) st).score ∧
      st.ghostsDestroyed ≤ (gs.foldl (Game.hitGhostStep p) st).ghostsDestroyed
  | [], st => ⟨le_refl _, le_refl _⟩
  | g :: gs, st => by
    rw [List.foldl_cons]
    obtain ⟨h1, h2⟩ := hitFold_counters p gs (Game.hitGhostStep p st g)
    have hs : st.score ≤ (Game.hitGhostStep p st g).score ∧
        st.ghostsDestroyed ≤ (Game.hitGhostStep p st g).ghostsDestroyed := by
      have hd := destroyPoints_pos g.variant
      have h30 : (0:ℤ) ≤ if g.variant = .rainbow then 30 else 25 := by
        split_ifs <;> norm_num
      by_cases hc : Game.checkProjectileGhostCollision p g = true
      · by_cases ht : g.takeDamage.2 = true
        · unfold Game.hitGhostStep
          rw [if_pos hc, if_pos ht]
          constructor <;> simp <;> omega
        · unfold Game.hitGhostStep
          rw [if_pos hc, if_neg ht]
          constructor <;> simp <;> omega
      · unfold Game.hitGhostStep
        rw [if_neg hc]
        exact ⟨le_refl _, le_refl _⟩
    exact ⟨le_trans hs.1 h1, le_trans hs.2 h2⟩

/-- The outer collision fold never decreases score or the kill counter. -/
lemma projFold_counters :
    ∀ (ps : List Projectile) (st : PassState),
      st.score ≤ (ps.foldl Game.projectilePass st).score ∧
      st.ghostsDestroyed ≤ (ps.foldl Game.projectilePass st).ghostsDestroyed
  | [], st => ⟨le_refl _, le_refl _⟩
  | p :: ps, st => by
    rw [List.foldl_cons]
    obtain ⟨h1, h2⟩ := projFold_counters ps (Game.projectilePass st p)
    obtain ⟨g1, g2⟩ := hitFold_counters p st.ghosts
      { kept := [], score := st.score, lives := st.lives,
        ghostsDestroyed := st.ghostsDestroyed, visualEffects := st.visualEffects,
        marks := st.marks, hit := false }
    exact ⟨le_trans g1 h1, le_trans g2 h2⟩

/-- The rainbow chain fold never decreases score or the kill counter. -/
lemma chainFold_counters (rg : Ghost) (r : ℚ) :
    ∀ (gs : List Ghost) (st : ChainState),
      st.score ≤ (gs.foldl (Game.rainbowChainStep rg r) st).score ∧
      st.ghostsDestroyed ≤ (gs.foldl (Game.rainbowChainStep rg r) st).ghostsDestroyed
  | [], st => ⟨le_refl _, le_refl _⟩
  | g :: gs, st => by
    rw [List.foldl_cons]
    obtain ⟨h1, h2⟩ := chainFold_counters rg r gs (Game.rainbowChainStep rg r st g)
    have hs : st.score ≤ (Game.rainbowChainStep rg r st g).score ∧
        st.ghostsDestroyed ≤ (Game.rainbowChainStep rg r st g).ghostsDestroyed := by
      unfold Game.rainbowChainStep
      split_ifs <;> constructor <;> simp
    exact ⟨le_trans hs.1 h1, le_trans hs.2 h2⟩

/-- One rainbow explosion never decreases score or the kill counter. -/
lemma handleRainbow_counters (game : Game) (rg : Ghost) :
    game.score ≤ (game.handleRainbowGhostExplosion rg).score ∧
    game.ghostsDestroyed ≤ (game.handleRainbowGhostExplosion rg).ghostsDestroyed := by
  unfold Game.handleRainbowGhostExplosion
  exact chainFold_counters rg (150 * game.scale) game.ghosts _

/-- The queued rainbow explosions never decrease score or the kill counter. -/
lemma rainbowFold_counters :
    ∀ (rgs : List Ghost) (game : Game),
      game.score ≤ (rgs.foldl Game.handleRainbowGhostExplosion game).score ∧
      game.ghostsDestroyed
        ≤ (rgs.foldl Game.handleRainbowGhostExplosion game).ghostsDestroyed
  | [], game => ⟨le_refl _, le_refl _⟩
  | rg :: rgs, game => by
    rw [List.foldl_cons]
    obtain ⟨h1, h2⟩ := rainbowFold_counters rgs (game.handleRainbowGhostExplosion rg)
    obtain ⟨g1, g2⟩ := handleRainbow_counters game rg
    exact ⟨le_trans g1 h1, le_trans g2 h2⟩

/-- The boss explosion never decreases score or the kill counter. -/
lemma handleBoss_counters (game : Game) (b : Ghost) :
    game.score ≤ (game.handleBossGhostExplosion b).score ∧
    game.ghostsDestroyed ≤ (game.handleBossGhostExplosion b).ghostsDestroyed := by
  unfold Game.handleBossGhostExplosion
  constructor <;> simp

/-- The boss dispatch never decreases score or the kill counter. -/
lemma runBoss_counters (game : Game) (ob : Option Ghost) :
    game.score ≤ (game.runBossExplosion ob).score ∧
    game.ghostsDestroyed ≤ (game.runBossExplosion ob).ghostsDestroyed := by
  cases ob with
  | none => exact ⟨le_refl _, le_refl _⟩
  | some b => exact handleBoss_counters game b

/-- `checkCollisions` never decreases score or the kill counter. -/
lemma checkCollisions_counters (game : Game) :
    game.score ≤ game.checkCollisions.score ∧
    game.ghostsDestroyed ≤ game.checkCollisions.ghostsDestroyed := by
  have h := projFold_counters game.projectiles
    { ghosts := game.ghosts, keptProjectiles := [], score := game.score,
      lives := game.lives, ghostsDestroyed := game.ghostsDestroyed,
      visualEffects := game.visualEffects,
      marks := { rainbowGhostsToExplode := [], bossGhostToExplode := none } }
  constructor
  · exact le_trans h.1 (le_trans (rainbowFold_counters _ _).1 (runBoss_counters _ _).1)
  · exact le_trans h.2 (le_trans (rainbowFold_counters _ _).2 (runBoss_counters _ _).2)

/-- The nuke fold never decreases score or the kill counter. -/
lemma nukeFold_counters (c : Vec2) (r : ℚ) :
    ∀ (gs : List Ghost) (st : ChainState),
      st.score ≤ (gs.foldl (Game.nukeStep c r) st).score ∧
      st.ghostsDestroyed ≤ (gs.foldl (Game.nukeStep c r) st).ghostsDestroyed
  | [], st => ⟨le_refl _, le_refl _⟩
  | g :: gs, st => by
    rw [List.foldl_cons]
    obtain ⟨h1, h2⟩ := nukeFold_counters c r gs (Game.nukeStep c r st g)
    have hs : st.score ≤ (Game.nukeStep c r st g).score ∧
        st.ghostsDestroyed ≤ (Game.nukeStep c r st g).ghostsDestroyed := by
      unfold Game.nukeStep
      split_ifs <;> constructor <;> simp
    exact ⟨le_trans hs.1 h1, le_trans hs.2 h2⟩

/-- `fireNuke` never decreases score or the kill counter. -/
lemma fireNuke_counters (game : Game) :
    game.score ≤ game.fireNuke.score ∧
    game.ghostsDestroyed ≤ game.fireNuke.ghostsDestroyed := by
  unfold Game.fireNuke
  exact nukeFold_counters game.player.position (game.height / 2) game.ghosts _

/-- `handleInput` never decreases score or the kill counter. -/
lemma handleInput_counters (game : Game) (t : ℚ) :
    game.score ≤ (game.handleInput t).score ∧
    game.ghostsDestroyed ≤ (game.handleInput t).ghostsDestroyed := by
  simp only [Game.handleInput]
  split_ifs <;>
    first
      | exact ⟨le_refl _, le_refl _⟩
      | exact ⟨(fireNuke_counters _).1, (fireNuke_counters _).2⟩

/-- `spawnGhost` leaves score and the kill counter unchanged. -/
lemma spawnGhost_counters (game : Game) (r : ℚ) (t : GhostType) :
    (game.spawnGhost r t).score = game.score ∧
    (game.spawnGhost r t).ghostsDestroyed = game.ghostsDestroyed :=
  ⟨rfl, rfl⟩

/-- The nuke-ready step leaves score and the kill counter unchanged. -/
lemma updateNukeReady_counters (game : Game) (t : ℚ) :
    (game.updateNukeReady t).score = game.score ∧
    (game.updateNukeReady t).ghostsDestroyed = game.ghostsDestroyed := by
  unfold Game.updateNukeReady
  split_ifs <;> exact ⟨rfl, rfl⟩

/-- The regular spawn timer leaves score and the kill counter unchanged. -/
lemma tickGhostSpawn_counters (game : Game) (dt r : ℚ) :
    (game.tickGhostSpawn dt r).score = game.score ∧
    (game.tickGhostSpawn dt r).ghostsDestroyed = game.ghostsDestroyed := by
  simp only [Game.tickGhostSpawn]
  split_ifs <;> exact ⟨rfl, rfl⟩

/-- The special spawn timer leaves score and the kill counter unchanged. -/
lemma tickSpecialSpawn_counters (game : Game) (dt r : ℚ) :
    (game.tickSpecialSpawn dt r).score = game.score ∧
    (game.tickSpecialSpawn dt r).ghostsDestroyed = game.ghostsDestroyed := by
  simp only [Game.tickSpecialSpawn]
  split_ifs <;> exact ⟨rfl, rfl⟩

/-- The rainbow spawn timer leaves score and the kill counter unchanged. -/
lemma tickRainbowSpawn_counters (game : Game) (dt r : ℚ) :
    (game.tickRainbowSpawn dt r).score = game.score ∧
    (game.tickRainbowSpawn dt r).ghostsDestroyed = game.ghostsDestroyed := by
  simp only [Game.tickRainbowSpawn]
  split_ifs <;> exact ⟨rfl, rfl⟩

/-- The boss spawn timer leaves score and the kill counter unchanged. -/
lemma tickBossSpawn_counters (game : Game) (dt r : ℚ) :
    (game.tickBossSpawn dt r).score = game.score ∧
    (game.tickBossSpawn dt r).ghostsDestroyed = game.ghostsDestroyed := by
  simp only [Game.tickBossSpawn]
  split_ifs <;> exact ⟨rfl, rfl⟩

/-- The forced boss countdown leaves score and the kill counter unchanged. -/
lemma tickForcedBossSpawn_counters (game : Game) (dt r : ℚ) :
    (game.tickForcedBossSpawn dt r).score = game.score ∧
    (game.tickForcedBossSpawn dt r).ghostsDestroyed = game.ghostsDestroyed := by
  simp only [Game.tickForcedBossSpawn]
  split_ifs <;> exact ⟨rfl, rfl⟩

/-- `Game.update` never decreases score or the kill counter: together with
their initial value 0 this gives `0 ≤ score` and `0 ≤ ghostsDestroyed` in
every reachable frame state. -/
lemma update_counters (game : Game) (dt t : ℚ) (rnd : SpawnRand) :
    game.score ≤ (game.update dt t rnd).score ∧
    game.ghostsDestroyed ≤ (game.update dt t rnd).ghostsDestroyed := by
  unfold Game.update
  set g1 := game.updateNukeReady t with hg1
  obtain ⟨c1, c2⟩ := updateNukeReady_counters game t
  obtain ⟨i1, i2⟩ := handleInput_counters g1 t
  set g2 := g1.handleInput t with hg2
  set g3 := ((((g2.advancePlayer dt).advanceProjectiles dt).advanceVisualEffects
      dt).advanceGhosts dt) with hg3
  have e3s : g3.score = g2.score := rfl
  have e3d : g3.ghostsDestroyed = g2.ghostsDestroyed := rfl
  set g4 := ((((g3.tickGhostSpawn dt rnd.normalR).tickSpecialSpawn dt
      rnd.specialR).tickRainbowSpawn dt rnd.rainbowR).tickBossSpawn dt
      rnd.bossR).tickForcedBossSpawn dt rnd.forcedR with hg4
  have e4s : g4.score = g3.score := by
    rw [hg4, (tickForcedBossSpawn_counters _ dt rnd.forcedR).1,
      (tickBossSpawn_counters _ dt rnd.bossR).1,
      (tickRainbowSpawn_counters _ dt rnd.rainbowR).1,
      (tickSpecialSpawn_counters _ dt rnd.specialR).1,
      (tickGhostSpawn_counters _ dt rnd.normalR).1]
  have e4d : g4.ghostsDestroyed = g3.ghostsDestroyed := by
    rw [hg4, (tickForcedBossSpawn_counters _ dt rnd.forcedR).2,
      (tickBossSpawn_counters _ dt rnd.bossR).2,
      (tickRainbowSpawn_counters _ dt rnd.rainbowR).2,
      (tickSpecialSpawn_counters _ dt rnd.specialR).2,
      (tickGhostSpawn_counters _ dt rnd.normalR).2]
  obtain ⟨k1, k2⟩ := checkCollisions_counters g4
  constructor
  · calc game.score = g1.score := c1.symm
      _ ≤ g2.score := i1
      _ = g3.score := e3s.symm
      _ = g4.score := e4s.symm
      _ ≤ g4.checkCollisions.score := k1
      _ = (g4.checkCollisions.cullEscapedGhosts t).score := rfl
  · calc game.ghostsDestroyed = g1.ghostsDestroyed := c2.symm
      _ ≤ g2.ghostsDestroyed := i2
      _ = g3.ghostsDestroyed := e3d.symm
      _ = g4.ghostsDestroyed := e4d.symm
      _ ≤ g4.checkCollisions.ghostsDestroyed := k2
      _ = (g4.checkCollisions.cullEscapedGhosts t).ghostsDestroyed := rfl

/-- C3 (counterexample): from the reachable frame state `twoEscapedGame`
(playing, one life, two ghosts at the bottom edge), one `update` tick drives
`lives` to `-1 < 0`, refuting the claimed invariant `0 ≤ lives`; the tick
also enters `gameOver` with `lives` passing from 1 to −1, not to 0. -/
theorem lives_nonneg_fails_on_double_escape :
    twoEscapedGame.state = GameState.playing ∧
    twoEscapedGame.lives = 1 ∧
    (twoEscapedGame.update 0 16 rnd0).lives = -1 ∧
    (twoEscapedGame.update 0 16 rnd0).state = GameState.gameOver := by
  refine ⟨rfl, rfl, ?_, ?_⟩ <;>
    norm_num [twoEscapedGame, baseGame, rnd0, Game.update, Game.updateNukeReady,
      Game.handleInput, Game.advancePlayer, Game.advanceProjectiles,
      Game.advanceVisualEffects, Game.advanceGhosts, Game.tickGhostSpawn,
      Game.tickSpecialSpawn, Game.tickRainbowSpawn, Game.tickBossSpawn,
      Game.tickForcedBossSpawn, Game.checkCollisions, Game.collisionPass, Game.runBossExplosion,
      Game.cullEscapedGhosts, Game.cullStep, Game.ghostLost,
      Game.checkGhostPlayerCollision, Game.projectilePass, Game.hitGhostStep,
      Game.ghostPhase, Ghost.update, Ghost.stopEvasion, Ghost.create,
      Player.update, Player.stop, Player.create]

/-- C3 (amended): `score` and `ghostsDestroyed` are nondecreasing across
every tick (hence never negative from their initial value 0), while in the
escape/contact pass `lives` drops by exactly one per lost ghost with no
floor at zero — it can end negative when several ghosts are lost on the
last life in one tick — and `gameOver` is entered exactly when at least one
ghost was lost and the resulting `lives` is `≤ 0`. -/
theorem counters_monotone_and_lives_exact :
    (∀ (game : Game) (dt t : ℚ) (rnd : SpawnRand),
        game.score ≤ (game.update dt t rnd).score ∧
        game.ghostsDestroyed ≤ (game.update dt t rnd).ghostsDestroyed) ∧
    (∀ (game : Game) (t : ℚ),
        (game.cullEscapedGhosts t).lives
            = game.lives - (game.ghosts.countP (Game.ghostLost game) : ℤ) ∧
        ((game.cullEscapedGhosts t).state = GameState.gameOver ↔
          game.state = GameState.gameOver ∨
            (1 ≤ game.ghosts.countP (Game.ghostLost game) ∧
             (game.cullEscapedGhosts t).lives ≤ 0))) := by
  refine ⟨fun game dt t rnd => update_counters game dt t rnd, fun game t => ?_⟩
  obtain ⟨_, hl, _, hs⟩ := cull_spec game t
  refine ⟨hl, ?_⟩
  rw [hs, hl]
  split_ifs with h
  · exact iff_of_true rfl (Or.inr h)
  · constructor
    · intro hgo
      exact Or.inl hgo
    · intro hgo
      rcases hgo with hgo | hc
      · exact hgo
      · exact absurd hc h


/-- With no ghost in range, the nuke fold only copies the ghosts. -/
lemma nukeFold_noTargets (c : Vec2) (r : ℚ) :
    ∀ (gs : List Ghost) (st : ChainState),
      (∀ g ∈ gs, ¬dist2 g.position c ≤ r ^ 2) →
      gs.foldl (Game.nukeStep c r) st = { st with kept := st.kept ++ gs }
  | [], st => fun _ => by simp
  | g :: gs, st => fun h => by
    rw [List.foldl_cons]
    have hg : ¬dist2 g.position c ≤ r ^ 2 := h g (by simp)
    have hstep : Game.nukeStep c r st g = { st with kept := st.kept ++ [g] } := by
      rw [Game.nukeStep, if_neg hg]
    rw [hstep, nukeFold_noTargets c r gs _ (fun g' hg' => h g' (by simp [hg']))]
    simp

/-- With no ghost inside the blast radius, `fireNuke` only appends the nuke
visual effect. -/
lemma fireNuke_noTargets (game : Game)
    (h : ∀ g ∈ game.ghosts,
      ¬dist2 g.position game.player.position ≤ (game.height / 2) ^ 2) :
    game.fireNuke.ghosts = game.ghosts ∧
    game.fireNuke.visualEffects
        = game.visualEffects
          ++ [VisualEffect.newNuke game.player.position (game.height / 2)] ∧
    game.fireNuke.score = game.score ∧
    game.fireNuke.lives = game.lives ∧
    game.fireNuke.ghostsDestroyed = game.ghostsDestroyed := by
  have hfold := nukeFold_noTargets game.player.position (game.height / 2)
    game.ghosts
    { kept := [], score := game.score, lives := game.lives,
      ghostsDestroyed := game.ghostsDestroyed,
      visualEffects := game.visualEffects
        ++ [VisualEffect.newNuke game.player.position (game.height / 2)] } h
  exact ⟨(congrArg (fun s => s.kept) hfold).trans (List.nil_append _),
    congrArg (fun s => s.visualEffects) hfold,
    congrArg (fun s => s.score) hfold,
    congrArg (fun s => s.lives) hfold,
    congrArg (fun s => s.ghostsDestroyed) hfold⟩

/-- C9: firing the nuke (key `n` held with the ready flag set) always
appends the nuke visual effect and resets the cooldown — the ready flag is
cleared and the cooldown timestamp restarts at the current time — and when
no ghost lies within the blast radius of half the screen height around the
player, the score, lives, kill counter and ghost set are unchanged. -/
theorem nuke_no_targets (game : Game) (t : ℚ)
    (hk : game.keys.nKey = true) (hr : game.nukeReady = true)
    (hno : ∀ g ∈ game.ghosts,
      ¬dist2 g.position game.player.position ≤ (game.height / 2) ^ 2) :
    (game.handleInput t).visualEffects
        = game.visualEffects
          ++ [VisualEffect.newNuke game.player.position (game.height / 2)] ∧
    (game.handleInput t).nukeReady = false ∧
    (game.handleInput t).lastNuke = t ∧
    (game.handleInput t).score = game.score ∧
    (game.handleInput t).lives = game.lives ∧
    (game.handleInput t).ghostsDestroyed = game.ghostsDestroyed ∧
    (game.handleInput t).ghosts = game.ghosts := by
  simp only [Game.handleInput]
  split_ifs <;>
    first
      | (obtain ⟨h1, h2, h3, h4, h5⟩ := fireNuke_noTargets _
            (fun g hg => hno g hg)
         exact ⟨h2, rfl, rfl, h3, h4, h5, h1⟩)
      | simp_all [Game.shoot]


/-- Witness for `nuke_no_targets` at `nukeReadyGame`, `t = 5`. -/
theorem nuke_no_targets_witness :
    nukeReadyGame.keys.nKey = true ∧ nukeReadyGame.nukeReady = true ∧
    (∀ g ∈ nukeReadyGame.ghosts,
      ¬dist2 g.position nukeReadyGame.player.position
        ≤ (nukeReadyGame.height / 2) ^ 2) ∧
    ((nukeReadyGame.handleInput 5).visualEffects
        = nukeReadyGame.visualEffects
          ++ [VisualEffect.newNuke nukeReadyGame.player.position
                (nukeReadyGame.height / 2)] ∧
     (nukeReadyGame.handleInput 5).nukeReady = false ∧
     (nukeReadyGame.handleInput 5).lastNuke = 5 ∧
     (nukeReadyGame.handleInput 5).score = nukeReadyGame.score ∧
     (nukeReadyGame.handleInput 5).lives = nukeReadyGame.lives ∧
     (nukeReadyGame.handleInput 5).ghostsDestroyed = nukeReadyGame.ghostsDestroyed ∧
     (nukeReadyGame.handleInput 5).ghosts = nukeReadyGame.ghosts) := by
  have h3 : ∀ g ∈ nukeReadyGame.ghosts,
      ¬dist2 g.position nukeReadyGame.player.position
        ≤ (nukeReadyGame.height / 2) ^ 2 := by
    norm_num [nukeReadyGame, baseGame, dist2, Ghost.create, Player.create]
  exact ⟨rfl, rfl, h3, nuke_no_targets nukeReadyGame 5 rfl rfl h3⟩


/-- C6: a ghost created with the boss variant has 4 times the width and
height of a normal ghost at creation (160 base units before scaling), and a
single projectile hit destroys it (`takeDamage` returns the destroyed
flag), upon which `checkCollisions` marks it for the boss chain. -/
theorem boss_ghost_creation (id : Nat) (x y : ℚ) :
    (Ghost.create id x y .boss).width = 160 ∧
    (Ghost.create id x y .boss).height = 160 ∧
    (Ghost.create id x y .boss).width = 4 * (Ghost.create id x y .normal).width ∧
    (Ghost.create id x y .boss).height = 4 * (Ghost.create id x y .normal).height ∧
    (Ghost.create id x y .boss).hitPoints = 1 ∧
    (Ghost.create id x y .boss).takeDamage.2 = true := by
  refine ⟨rfl, rfl, ?_, ?_, rfl, ?_⟩
  · norm_num [Ghost.create, bossWidth]
  · norm_num [Ghost.create, bossHeight]
  · norm_num [Ghost.create, Ghost.takeDamage, bossHitPoints]

/-- C8 (counterexample): in the source's per-ghost phase, a ghost that
adopts evasion in a frame keeps the horizontal position integrated with its
previous velocity — the position the hit test then sees is unmoved — while
under the claimed order (evasion before integration) the same ghost would
already have moved away. -/
theorem evasion_order_counterexample :
    (Game.ghostPhase [evadeTestProjectile] 800 (1/10) evadeTestGhost).isEvading
        = true ∧
    (Game.ghostPhase [evadeTestProjectile] 800 (1/10) evadeTestGhost).position.x
        = evadeTestGhost.position.x ∧
    (Game.ghostPhaseSpecOrder [evadeTestProjectile] 800 (1/10)
        evadeTestGhost).position.x ≠ evadeTestGhost.position.x := by
  refine ⟨?_, ?_, ?_⟩ <;>
    norm_num [Game.ghostPhase, Game.ghostPhaseSpecOrder, evadeTestGhost,
      evadeTestProjectile, Ghost.create, Ghost.update, Ghost.startEvasion,
      Ghost.stopEvasion, Projectile.create, List.find?]

/-- C8 (amended): the per-ghost phase integrates the position with the
velocity already in force, and only then runs the evasion search (still
ahead of the hit test); the frame's resulting position — the one the
collision pass tests — is the clamped old-velocity integration, unaffected
by the evasion decision taken in the same frame, which first moves the
ghost in the next frame. -/
theorem evasion_runs_after_integration (projectiles : List Projectile)
    (width deltaTime : ℚ) (g : Ghost) :
    (Game.ghostPhase projectiles width deltaTime g).position
      = (if (g.update deltaTime).position.x < (g.update deltaTime).width / 2 then
          (⟨(g.update deltaTime).width / 2, (g.update deltaTime).position.y⟩ : Vec2)
        else if (g.update deltaTime).position.x
            > width - (g.update deltaTime).width / 2 then
          (⟨width - (g.update deltaTime).width / 2,
            (g.update deltaTime).position.y⟩ : Vec2)
        else (g.update deltaTime).position) := by
  simp only [Game.ghostPhase]
  cases hnf : projectiles.find? (fun p =>
      decide (|p.position.x - (g.update deltaTime).position.x| < 100) &&
      decide (p.position.y < (g.update deltaTime).position.y) &&
      decide (p.position.y > (g.update deltaTime).position.y - 200)) with
  | none =>
    simp only [Ghost.stopEvasion]
    split_ifs <;> rfl
  | some p =>
    simp only [Ghost.startEvasion]
    split_ifs <;> rfl


/-- Chained rainbow explosions do not touch the shot timestamp. -/
lemma rainbowFold_lastShot :
    ∀ (rgs : List Ghost) (game : Game),
      (rgs.foldl Game.handleRainbowGhostExplosion game).lastShot = game.lastShot
  | [], _ => rfl
  | _ :: rgs, game => (rainbowFold_lastShot rgs _).trans rfl

/-- The boss dispatch does not touch the shot timestamp. -/
lemma runBoss_lastShot (game : Game) :
    ∀ ob : Option Ghost, (game.runBossExplosion ob).lastShot = game.lastShot
  | some _ => rfl
  | none => rfl

/-- `checkCollisions` does not touch the shot timestamp. -/
lemma checkCollisions_lastShot (game : Game) :
    game.checkCollisions.lastShot = game.lastShot :=
  (runBoss_lastShot _ _).trans ((rainbowFold_lastShot _ _).trans rfl)

/-- The nuke-ready step does not touch the keyboard state or the shot
cooldown fields. -/
lemma updateNukeReady_shot_fields (game : Game) (t : ℚ) :
    (game.updateNukeReady t).keys = game.keys ∧
    (game.updateNukeReady t).lastShot = game.lastShot ∧
    (game.updateNukeReady t).shotCooldown = game.shotCooldown := by
  unfold Game.updateNukeReady
  split_ifs <;> exact ⟨rfl, rfl, rfl⟩

/-- The spawn-timer phases do not touch the shot timestamp. -/
lemma spawnPhases_lastShot (game : Game) (dt r : ℚ) :
    (game.tickGhostSpawn dt r).lastShot = game.lastShot ∧
    (game.tickSpecialSpawn dt r).lastShot = game.lastShot ∧
    (game.tickRainbowSpawn dt r).lastShot = game.lastShot ∧
    (game.tickBossSpawn dt r).lastShot = game.lastShot ∧
    (game.tickForcedBossSpawn dt r).lastShot = game.lastShot := by
  refine ⟨?_, ?_, ?_, ?_, ?_⟩ <;>
    simp only [Game.tickGhostSpawn, Game.tickSpecialSpawn, Game.tickRainbowSpawn,
      Game.tickBossSpawn, Game.tickForcedBossSpawn, Game.spawnGhost] <;>
    split_ifs <;> rfl

/-- When space is held and the wall-clock cooldown has elapsed,
`handleInput` fires and restamps `lastShot` with the current wall-clock
time. -/
lemma handleInput_lastShot (game : Game) (t : ℚ)
    (hk : game.keys.space = true)
    (hcd : t - game.lastShot ≥ game.shotCooldown) :
    (game.handleInput t).lastShot = t := by
  simp only [Game.handleInput]
  split_ifs <;> first | rfl | simp_all [Game.shoot]

/-- When space is held and the wall-clock cooldown has elapsed, the whole
tick restamps `lastShot` with the current wall-clock time. -/
lemma update_lastShot (game : Game) (dt t : ℚ) (rnd : SpawnRand)
    (hk : game.keys.space = true)
    (hcd : t - game.lastShot ≥ game.shotCooldown) :
    (game.update dt t rnd).lastShot = t := by
  unfold Game.update
  obtain ⟨e1, e2, e3⟩ := updateNukeReady_shot_fields game t
  set g1 := game.updateNukeReady t with hg1
  have hi : (g1.handleInput t).lastShot = t := by
    apply handleInput_lastShot
    · rw [e1, hk]
    · rw [e2, e3]; exact hcd
  set g2 := g1.handleInput t with hg2
  set g3 := ((((g2.advancePlayer dt).advanceProjectiles dt).advanceVisualEffects
      dt).advanceGhosts dt) with hg3
  have e3s : g3.lastShot = g2.lastShot := rfl
  obtain ⟨s1, _, _, _, _⟩ := spawnPhases_lastShot g3 dt rnd.normalR
  set g4 := ((((g3.tickGhostSpawn dt rnd.normalR).tickSpecialSpawn dt
      rnd.specialR).tickRainbowSpawn dt rnd.rainbowR).tickBossSpawn dt
      rnd.bossR).tickForcedBossSpawn dt rnd.forcedR with hg4
  have e4 : g4.lastShot = g3.lastShot := by
    rw [hg4, (spawnPhases_lastShot _ dt rnd.forcedR).2.2.2.2,
      (spawnPhases_lastShot _ dt rnd.bossR).2.2.2.1,
      (spawnPhases_lastShot _ dt rnd.rainbowR).2.2.1,
      (spawnPhases_lastShot _ dt rnd.specialR).2.1, s1]
  calc (g4.checkCollisions.cullEscapedGhosts t).lastShot
      = g4.checkCollisions.lastShot := rfl
    _ = g4.lastShot := checkCollisions_lastShot g4
    _ = g3.lastShot := e4
    _ = g2.lastShot := e3s
    _ = t := hi

/-- C4 (counterexample): a shot was fired at wall-clock 0 and the game
paused at 100 ms with only 100 ms of the 250 ms cooldown served.  Paused
frames change nothing but the frame timestamp, yet on the first frame after
unpausing (450 ms, only 150 ms of unpaused time since the shot) the shot
fires: the cooldown elapsed during the pause, refuting the claim that it
measures zero elapsed simulation time over the paused interval. -/
theorem shot_cooldown_runs_during_pause :
    pausedGame.gameLoopStep 400 rnd0 = { pausedGame with lastTime := 400 } ∧
    (resumedGame.gameLoopStep 450 rnd0).lastShot = 450 ∧
    (resumedGame.gameLoopStep 450 rnd0).projectiles.length = 1 ∧
    ((100 : ℚ) - 0) + (450 - 400) < 250 := by
  refine ⟨rfl, ?_, ?_, by norm_num⟩ <;>
    norm_num [resumedGame, pausedGame, baseGame, rnd0, Game.gameLoopStep,
      Game.update, Game.updateNukeReady, Game.handleInput, Game.advancePlayer,
      Game.advanceProjectiles, Game.advanceVisualEffects, Game.advanceGhosts,
      Game.tickGhostSpawn, Game.tickSpecialSpawn, Game.tickRainbowSpawn,
      Game.tickBossSpawn, Game.tickForcedBossSpawn, Game.checkCollisions, Game.collisionPass,
      Game.runBossExplosion, Game.cullEscapedGhosts, Game.shoot,
      Game.projectilePass, Projectile.create, Projectile.update,
      Projectile.isOffScreen, Player.update, Player.stop, Player.create]

/-- C4 (amended): while paused, a frame advances no game state at all — no
spawn timer, no entity, and no timestamp other than the frame time — but
the shot (and nuke) cooldowns are measured against wall-clock timestamps,
so they keep elapsing across a paused interval: on the first playing frame
at wall-clock `t` with space held, the shot fires as soon as
`t - lastShot ≥ shotCooldown` counted in wall-clock time, pause included. -/
theorem pause_freezes_frames_cooldowns_wallclock :
    (∀ (game : Game) (t : ℚ) (rnd : SpawnRand), game.state = GameState.paused →
        game.gameLoopStep t rnd = { game with lastTime := t }) ∧
    (∀ (game : Game) (t : ℚ) (rnd : SpawnRand), game.state = GameState.playing →
        game.keys.space = true → t - game.lastShot ≥ game.shotCooldown →
        (game.gameLoopStep t rnd).lastShot = t) := by
  constructor
  · intro game t rnd hp
    unfold Game.gameLoopStep
    rw [if_neg]
    simp [hp]
  · intro game t rnd hp hk hcd
    unfold Game.gameLoopStep
    rw [if_pos]
    · exact update_lastShot _ _ _ _ hk hcd
    · simp [hp]

/-- Witness for `pause_freezes_frames_cooldowns_wallclock` at `pausedGame`
(frame at 400) and `resumedGame` (frame at 450). -/
theorem pause_freezes_frames_cooldowns_wallclock_witness :
    pausedGame.state = GameState.paused ∧
    pausedGame.gameLoopStep 400 rnd0 = { pausedGame with lastTime := 400 } ∧
    resumedGame.state = GameState.playing ∧
    resumedGame.keys.space = true ∧
    (450 : ℚ) - resumedGame.lastShot ≥ resumedGame.shotCooldown ∧
    (resumedGame.gameLoopStep 450 rnd0).lastShot = 450 := by
  have hcd : (450 : ℚ) - resumedGame.lastShot ≥ resumedGame.shotCooldown := by
    norm_num [resumedGame, pausedGame, baseGame]
  exact ⟨rfl,
    pause_freezes_frames_cooldowns_wallclock.1 pausedGame 400 rnd0 rfl,
    rfl, rfl, hcd,
    pause_freezes_frames_cooldowns_wallclock.2 resumedGame 450 rnd0 rfl rfl hcd⟩


/-- Characterization of the rainbow-chain fold when the rainbow ghost
itself is no longer in the list: in-range ghosts are destroyed (+10 points,
one counted kill and a life-recovery check each), the rest are kept. -/
lemma rainbowChainFold_spec (rg : Ghost) (r : ℚ) :
    ∀ (gs : List Ghost) (st : ChainState),
      (∀ g ∈ gs, g.id ≠ rg.id) →
      (gs.foldl (Game.rainbowChainStep rg r) st).kept
          = st.kept ++ gs.filter
              (fun g => !decide (dist2 g.position rg.position ≤ r ^ 2)) ∧
      (gs.foldl (Game.rainbowChainStep rg r) st).score
          = st.score + 10 * (gs.countP
              (fun g => decide (dist2 g.position rg.position ≤ r ^ 2)) : ℤ) ∧
      (gs.foldl (Game.rainbowChainStep rg r) st).ghostsDestroyed
          = st.ghostsDestroyed + (gs.countP
              (fun g => decide (dist2 g.position rg.position ≤ r ^ 2)) : ℤ) ∧
      (gs.foldl (Game.rainbowChainStep rg r) st).lives
          = st.lives + (Int.fdiv (st.ghostsDestroyed + (gs.countP
                (fun g => decide (dist2 g.position rg.position ≤ r ^ 2)) : ℤ)) 100
              - Int.fdiv st.ghostsDestroyed 100) ∧
      (gs.foldl (Game.rainbowChainStep rg r) st).visualEffects
          = st.visualEffects ++ (gs.filter
              (fun g => decide (dist2 g.position rg.position ≤ r ^ 2))).map
                (fun g => VisualEffect.newExplosion g.position)
  | [], st => fun _ => by simp
  | g :: gs, st => fun h => by
    have hid : g.id ≠ rg.id := h g (by simp)
    have htl : ∀ g' ∈ gs, g'.id ≠ rg.id := fun g' hg' => h g' (by simp [hg'])
    rw [List.foldl_cons]
    by_cases hin : dist2 g.position rg.position ≤ r ^ 2
    · have hstep : Game.rainbowChainStep rg r st g =
          ⟨st.kept, st.score + 10,
            (if (st.ghostsDestroyed + 1) % 100 = 0 then st.lives + 1 else st.lives),
            st.ghostsDestroyed + 1,
            st.visualEffects ++ [VisualEffect.newExplosion g.position]⟩ := by
        rw [Game.rainbowChainStep, if_neg hid, if_pos hin]
      rw [hstep]
      obtain ⟨hk, hsc, hgd, hlv, hve⟩ := rainbowChainFold_spec rg r gs
        ⟨st.kept, st.score + 10,
          (if (st.ghostsDestroyed + 1) % 100 = 0 then st.lives + 1 else st.lives),
          st.ghostsDestroyed + 1,
          st.visualEffects ++ [VisualEffect.newExplosion g.position]⟩ htl
      refine ⟨?_, ?_, ?_, ?_, ?_⟩
      · rw [hk]; simp [hin]
      · rw [hsc]; simp [List.countP_cons, hin]; push_cast; ring
      · rw [hgd]; simp [List.countP_cons, hin]; push_cast; ring
      · rw [hlv]; simp [List.countP_cons, hin, fdiv_hundred]
        push_cast
        split_ifs <;> omega
      · rw [hve]; simp [hin]
    · have hstep : Game.rainbowChainStep rg r st g =
          ⟨st.kept ++ [g], st.score, st.lives, st.ghostsDestroyed,
            st.visualEffects⟩ := by
        rw [Game.rainbowChainStep, if_neg hid, if_neg hin]
      rw [hstep]
      obtain ⟨hk, hsc, hgd, hlv, hve⟩ := rainbowChainFold_spec rg r gs
        ⟨st.kept ++ [g], st.score, st.lives, st.ghostsDestroyed,
          st.visualEffects⟩ htl
      refine ⟨?_, ?_, ?_, ?_, ?_⟩
      · rw [hk]; simp [hin]
      · rw [hsc]; simp [List.countP_cons, hin]
      · rw [hgd]; simp [List.countP_cons, hin]
      · rw [hlv]; simp [List.countP_cons, hin]
      · rw [hve]; simp [hin]

/-- C5: when a rainbow ghost explodes, every other ghost whose center lies
within 150 scaled units of its position is destroyed, each adding exactly
10 points and one counted kill, with the per-kill life-recovery checks
adding up to `⌊(gd+k)/100⌋ − ⌊gd/100⌋` lives (the cumulative effect of
re-checking the +1-life-per-100 threshold after each individual chained
kill). -/
theorem rainbow_chain_explosion (game : Game) (rg : Ghost)
    (hid : ∀ g ∈ game.ghosts, g.id ≠ rg.id) :
    (game.handleRainbowGhostExplosion rg).ghosts
        = game.ghosts.filter (fun g =>
            !decide (dist2 g.position rg.position ≤ (150 * game.scale) ^ 2)) ∧
    (game.handleRainbowGhostExplosion rg).score
        = game.score + 10 * (game.ghosts.countP (fun g =>
            decide (dist2 g.position rg.position ≤ (150 * game.scale) ^ 2)) : ℤ) ∧
    (game.handleRainbowGhostExplosion rg).ghostsDestroyed
        = game.ghostsDestroyed + (game.ghosts.countP (fun g =>
            decide (dist2 g.position rg.position ≤ (150 * game.scale) ^ 2)) : ℤ) ∧
    (game.handleRainbowGhostExplosion rg).lives
        = game.lives
          + (Int.fdiv (game.ghostsDestroyed + (game.ghosts.countP (fun g =>
                decide (dist2 g.position rg.position
                  ≤ (150 * game.scale) ^ 2)) : ℤ)) 100
             - Int.fdiv game.ghostsDestroyed 100) := by
  obtain ⟨hk, hsc, hgd, hlv, _⟩ := rainbowChainFold_spec rg (150 * game.scale)
    game.ghosts
    ⟨[], game.score, game.lives, game.ghostsDestroyed, game.visualEffects⟩ hid
  exact ⟨hk.trans (List.nil_append _), hsc, hgd, hlv⟩


/-- Witness for `rainbow_chain_explosion` at `rainbowChainGame`,
`rainbowTestGhost`. -/
theorem rainbow_chain_explosion_witness :
    (∀ g ∈ rainbowChainGame.ghosts, g.id ≠ rainbowTestGhost.id) ∧
    ((rainbowChainGame.handleRainbowGhostExplosion rainbowTestGhost).ghosts
        = rainbowChainGame.ghosts.filter (fun g =>
            !decide (dist2 g.position rainbowTestGhost.position
              ≤ (150 * rainbowChainGame.scale) ^ 2)) ∧
     (rainbowChainGame.handleRainbowGhostExplosion rainbowTestGhost).score
        = rainbowChainGame.score + 10 * (rainbowChainGame.ghosts.countP (fun g =>
            decide (dist2 g.position rainbowTestGhost.position
              ≤ (150 * rainbowChainGame.scale) ^ 2)) : ℤ) ∧
     (rainbowChainGame.handleRainbowGhostExplosion
          rainbowTestGhost).ghostsDestroyed
        = rainbowChainGame.ghostsDestroyed
          + (rainbowChainGame.ghosts.countP (fun g =>
              decide (dist2 g.position rainbowTestGhost.position
                ≤ (150 * rainbowChainGame.scale) ^ 2)) : ℤ) ∧
     (rainbowChainGame.handleRainbowGhostExplosion rainbowTestGhost).lives
        = rainbowChainGame.lives
          + (Int.fdiv (rainbowChainGame.ghostsDestroyed
                + (rainbowChainGame.ghosts.countP (fun g =>
                    decide (dist2 g.position rainbowTestGhost.position
                      ≤ (150 * rainbowChainGame.scale) ^ 2)) : ℤ)) 100
             - Int.fdiv rainbowChainGame.ghostsDestroyed 100)) := by
  have hid : ∀ g ∈ rainbowChainGame.ghosts, g.id ≠ rainbowTestGhost.id := by
    simp [rainbowChainGame, rainbowTestGhost, baseGame, Ghost.create]
  exact ⟨hid, rainbow_chain_explosion rainbowChainGame rainbowTestGhost hid⟩


/-- A survivor returned by `takeDamage` keeps its identity, loses exactly
one hit point, remains strictly positive and keeps its maximum. -/
lemma takeDamage_survivor {g g' : Ghost} (h : g.takeDamage = (g', false)) :
    g'.id = g.id ∧ g'.hitPoints = g.hitPoints - 1 ∧ 0 < g'.hitPoints ∧
    g'.maxHitPoints = g.maxHitPoints := by
  unfold Ghost.takeDamage at h
  by_cases hp : g.hitPoints - 1 > 0
  · rw [if_pos hp] at h
    split_ifs at h <;>
      (injection h with h1 _; subst h1; exact ⟨rfl, rfl, hp, rfl⟩)
  · rw [if_neg hp] at h
    injection h with _ h2
    exact Bool.noConfusion h2

/-- The kept-list outcomes of one inner collision step: the ghost is
removed (destroyed), kept damaged (survivor) or kept untouched. -/
lemma hitGhostStep_kept (p : Projectile) (st : HitState) (g : Ghost) :
    (Game.hitGhostStep p st g).kept = st.kept ∨
    ((Game.hitGhostStep p st g).kept = st.kept ++ [g.takeDamage.1] ∧
      g.takeDamage.2 = false) ∨
    (Game.hitGhostStep p st g).kept = st.kept ++ [g] := by
  by_cases hc : Game.checkProjectileGhostCollision p g = true
  · by_cases ht : g.takeDamage.2 = true
    · left
      simp [Game.hitGhostStep, hc, ht]
    · have ht' : g.takeDamage.2 = false := by simpa using ht
      right; left
      refine ⟨?_, ht'⟩
      simp [Game.hitGhostStep, hc, ht']
  · right; right
    simp [Game.hitGhostStep, hc]

/-- The kept-list outcomes of one rainbow-chain step. -/
lemma rainbowChainStep_kept (rg : Ghost) (r : ℚ) (st : ChainState) (g : Ghost) :
    (Game.rainbowChainStep rg r st g).kept = st.kept ∨
    (Game.rainbowChainStep rg r st g).kept = st.kept ++ [g] := by
  unfold Game.rainbowChainStep
  split_ifs <;> first | exact Or.inl rfl | exact Or.inr rfl

/-- A predicate closed under damage-survival propagates through the inner
collision fold. -/
lemma hitFold_pred (p : Projectile) (P : Ghost → Prop)
    (hP : ∀ g g', P g → g.takeDamage = (g', false) → P g') :
    ∀ (gs : List Ghost) (st : HitState),
      (∀ g ∈ gs, P g) → (∀ g ∈ st.kept, P g) →
      ∀ g' ∈ (gs.foldl (Game.hitGhostStep p) st).kept, P g'
  | [], _ => fun _ hk => hk
  | g :: gs, st => fun hgs hk => by
    rw [List.foldl_cons]
    have hg : P g := hgs g (by simp)
    have htl : ∀ x ∈ gs, P x := fun x hx => hgs x (by simp [hx])
    apply hitFold_pred p P hP gs (Game.hitGhostStep p st g) htl
    intro x hx
    rcases hitGhostStep_kept p st g with hk1 | ⟨hk2, hs⟩ | hk3
    · rw [hk1] at hx
      exact hk x hx
    · rw [hk2] at hx
      rcases List.mem_append.mp hx with h1 | h2
      · exact hk x h1
      · have hx2 : x = g.takeDamage.1 := by simpa using h2
        subst hx2
        have heq : g.takeDamage = (g.takeDamage.1, false) := by rw [← hs]
        exact hP g _ hg heq
    · rw [hk3] at hx
      rcases List.mem_append.mp hx with h1 | h2
      · exact hk x h1
      · have hx2 : x = g := by simpa using h2
        subst hx2
        exact hg

/-- A predicate closed under damage-survival propagates through the outer
projectile fold. -/
lemma projFold_pred (P : Ghost → Prop)
    (hP : ∀ g g', P g → g.takeDamage = (g', false) → P g') :
    ∀ (ps : List Projectile) (st : PassState),
      (∀ g ∈ st.ghosts, P g) →
      ∀ g' ∈ (ps.foldl Game.projectilePass st).ghosts, P g'
  | [], _ => fun h => h
  | p :: ps, st => fun h => by
    rw [List.foldl_cons]
    apply projFold_pred P hP ps (Game.projectilePass st p)
    intro x hx
    exact hitFold_pred p P hP st.ghosts
      { kept := [], score := st.score, lives := st.lives,
        ghostsDestroyed := st.ghostsDestroyed, visualEffects := st.visualEffects,
        marks := st.marks, hit := false } h (by simp) x hx

/-- Every ghost kept by the rainbow-chain fold comes from the accumulator
or the input list. -/
lemma rainbowChainFold_mem (rg : Ghost) (r : ℚ) :
    ∀ (gs : List Ghost) (st : ChainState) (x : Ghost),
      x ∈ (gs.foldl (Game.rainbowChainStep rg r) st).kept →
      x ∈ st.kept ∨ x ∈ gs
  | [], _, x => fun h => Or.inl h
  | g :: gs, st, x => fun h => by
    rw [List.foldl_cons] at h
    rcases rainbowChainFold_mem rg r gs _ x h with h1 | h2
    · rcases rainbowChainStep_kept rg r st g with hk1 | hk2
      · rw [hk1] at h1
        exact Or.inl h1
      · rw [hk2] at h1
        rcases List.mem_append.mp h1 with ha | hb
        · exact Or.inl ha
        · have : x = g := by simpa using hb
          subst this
          exact Or.inr (List.mem_cons_self _ _)
    · exact Or.inr (List.mem_cons_of_mem _ h2)

/-- A rainbow explosion only removes ghosts, so any per-ghost predicate is
preserved. -/
lemma handleRainbow_ghosts_pred (P : Ghost → Prop) (game : Game) (rg : Ghost)
    (h : ∀ g ∈ game.ghosts, P g) :
    ∀ x ∈ (game.handleRainbowGhostExplosion rg).ghosts, P x := by
  intro x hx
  rcases rainbowChainFold_mem rg (150 * game.scale) game.ghosts
    ⟨[], game.score, game.lives, game.ghostsDestroyed, game.visualEffects⟩ x hx
    with h1 | h2
  · exact absurd h1 (List.not_mem_nil x)
  · exact h x h2

/-- The queued rainbow explosions only remove ghosts. -/
lemma rainbowFold_ghosts_pred (P : Ghost → Prop) :
    ∀ (rgs : List Ghost) (game : Game),
      (∀ g ∈ game.ghosts, P g) →
      ∀ x ∈ (rgs.foldl Game.handleRainbowGhostExplosion game).ghosts, P x
  | [], _ => fun h => h
  | rg :: rgs, game => fun h => by
    rw [List.foldl_cons]
    exact rainbowFold_ghosts_pred P rgs _ (handleRainbow_ghosts_pred P game rg h)

/-- The boss dispatch only removes ghosts. -/
lemma runBoss_ghosts_pred (P : Ghost → Prop) (game : Game) :
    ∀ ob : Option Ghost,
      (∀ g ∈ game.ghosts, P g) →
      ∀ x ∈ (game.runBossExplosion ob).ghosts, P x
  | some _ => fun _ x hx => absurd hx (List.not_mem_nil x)
  | none => fun h => h

/-- C7: if every active ghost satisfies `0 < hitPoints ≤ maxHitPoints`,
then after the collision pass every remaining ghost still does, each one
descends from an input ghost with the same identity and an unchanged
maximum, and its hit points have only decreased; a ghost reduced to zero
hit points is removed inside the pass, so nothing can damage it later. -/
theorem hitPoints_invariant (game : Game)
    (hinv : ∀ g ∈ game.ghosts, 0 < g.hitPoints ∧ g.hitPoints ≤ g.maxHitPoints) :
    ∀ g' ∈ game.checkCollisions.ghosts,
      (0 < g'.hitPoints ∧ g'.hitPoints ≤ g'.maxHitPoints) ∧
      ∃ g ∈ game.ghosts, g'.id = g.id ∧ g'.hitPoints ≤ g.hitPoints ∧
        g'.maxHitPoints = g.maxHitPoints := by
  have hP : ∀ g g', derivedGhostInv game.ghosts g → g.takeDamage = (g', false) →
      derivedGhostInv game.ghosts g' := by
    intro g g' hPg hsurv
    obtain ⟨hid, hhp, hpos, hmax⟩ := takeDamage_survivor hsurv
    obtain ⟨⟨_, _⟩, g0, hg0mem, hg0id, hg0hp, hg0max⟩ := hPg
    refine ⟨⟨hpos, ?_⟩, g0, hg0mem, ?_, ?_, ?_⟩
    · rw [hhp, hmax]; omega
    · rw [hid, hg0id]
    · rw [hhp]; omega
    · rw [hmax, hg0max]
  have hinit : ∀ g ∈ game.ghosts, derivedGhostInv game.ghosts g := fun g hg =>
    ⟨hinv g hg, g, hg, rfl, le_refl _, rfl⟩
  intro g' hg'
  exact runBoss_ghosts_pred (derivedGhostInv game.ghosts) _ _
    (rainbowFold_ghosts_pred (derivedGhostInv game.ghosts) _ _
      (fun x hx => projFold_pred (derivedGhostInv game.ghosts) hP
        game.projectiles
        { ghosts := game.ghosts, keptProjectiles := [], score := game.score,
          lives := game.lives, ghostsDestroyed := game.ghostsDestroyed,
          visualEffects := game.visualEffects,
          marks := { rainbowGhostsToExplode := [], bossGhostToExplode := none } }
        hinit x hx)) g' hg'

/-- Witness for `hitPoints_invariant` at `hitTestGame`. -/
theorem hitPoints_invariant_witness :
    (∀ g ∈ hitTestGame.ghosts,
      0 < g.hitPoints ∧ g.hitPoints ≤ g.maxHitPoints) ∧
    (∀ g' ∈ hitTestGame.checkCollisions.ghosts,
      (0 < g'.hitPoints ∧ g'.hitPoints ≤ g'.maxHitPoints) ∧
      ∃ g ∈ hitTestGame.ghosts, g'.id = g.id ∧ g'.hitPoints ≤ g.hitPoints ∧
        g'.maxHitPoints = g.maxHitPoints) := by
  have hinv : ∀ g ∈ hitTestGame.ghosts,
      0 < g.hitPoints ∧ g.hitPoints ≤ g.maxHitPoints := by
    simp [hitTestGame, baseGame, Ghost.create]
  exact ⟨hinv, hitPoints_invariant hitTestGame hinv⟩


/-- When the collision pass queues no chain explosion, `checkCollisions`
is exactly the pass's field updates. -/
lemma checkCollisions_no_marks (game : Game)
    (hm : game.collisionPass.marks = ⟨[], none⟩) :
    game.checkCollisions = { game with
      ghosts := game.collisionPass.ghosts
      projectiles := game.collisionPass.keptProjectiles
      score := game.collisionPass.score
      lives := game.collisionPass.lives
      ghostsDestroyed := game.collisionPass.ghostsDestroyed
      visualEffects := game.collisionPass.visualEffects } := by
  simp only [Game.checkCollisions]
  rw [hm]
  simp [Game.runBossExplosion]

/-- When the collision pass queues exactly the boss chain, `checkCollisions`
is the pass's field updates followed by the boss explosion. -/
lemma checkCollisions_boss_mark (game : Game) (b : Ghost)
    (hm : game.collisionPass.marks = ⟨[], some b⟩) :
    game.checkCollisions = Game.handleBossGhostExplosion { game with
      ghosts := game.collisionPass.ghosts
      projectiles := game.collisionPass.keptProjectiles
      score := game.collisionPass.score
      lives := game.collisionPass.lives
      ghostsDestroyed := game.collisionPass.ghostsDestroyed
      visualEffects := game.collisionPass.visualEffects } b := by
  simp only [Game.checkCollisions]
  rw [hm]
  simp [Game.runBossExplosion]

/-- Characterization of the inner collision fold over single-hit normal
ghosts: every ghost whose box overlaps the projectile is destroyed in the
same pass (+10 points and one counted kill each), the rest are kept, the
chain marks are untouched, and the projectile's hit flag is raised exactly
when at least one ghost overlapped. -/
lemma hitFold_normal1 (p : Projectile) :
    ∀ (gs : List Ghost) (st : HitState),
      (∀ g ∈ gs, g.variant = GhostType.normal ∧ g.hitPoints = 1) →
      (gs.foldl (Game.hitGhostStep p) st).kept
          = st.kept ++ gs.filter
              (fun g => !Game.checkProjectileGhostCollision p g) ∧
      (gs.foldl (Game.hitGhostStep p) st).score
          = st.score + 10 * (gs.countP (Game.checkProjectileGhostCollision p) : ℤ) ∧
      (gs.foldl (Game.hitGhostStep p) st).ghostsDestroyed
          = st.ghostsDestroyed
            + (gs.countP (Game.checkProjectileGhostCollision p) : ℤ) ∧
      (gs.foldl (Game.hitGhostStep p) st).lives
          = st.lives + (Int.fdiv (st.ghostsDestroyed
              + (gs.countP (Game.checkProjectileGhostCollision p) : ℤ)) 100
            - Int.fdiv st.ghostsDestroyed 100) ∧
      (gs.foldl (Game.hitGhostStep p) st).marks = st.marks ∧
      (gs.foldl (Game.hitGhostStep p) st).hit
          = (st.hit || gs.any (Game.checkProjectileGhostCollision p))
  | [], st => fun _ => by simp
  | g :: gs, st => fun h => by
    obtain ⟨hvar, hhp⟩ := h g (by simp)
    have htl : ∀ g' ∈ gs, g'.variant = GhostType.normal ∧ g'.hitPoints = 1 :=
      fun g' hg' => h g' (by simp [hg'])
    rw [List.foldl_cons]
    by_cases hc : Game.checkProjectileGhostCollision p g = true
    · have hdmg : g.takeDamage = ({ g with hitPoints := 0 }, true) := by
        simp [Ghost.takeDamage, hhp, hvar]
      have hstep : Game.hitGhostStep p st g =
          ⟨st.kept, st.score + 10,
            (if (st.ghostsDestroyed + 1) % 100 = 0 then st.lives + 1 else st.lives),
            st.ghostsDestroyed + 1,
            st.visualEffects ++ [VisualEffect.newExplosion g.position],
            st.marks, true⟩ := by
        simp [Game.hitGhostStep, hc, hdmg, hvar, Game.destroyPoints]
      rw [hstep]
      obtain ⟨hk, hsc, hgd, hlv, hmk, hht⟩ := hitFold_normal1 p gs
        ⟨st.kept, st.score + 10,
          (if (st.ghostsDestroyed + 1) % 100 = 0 then st.lives + 1 else st.lives),
          st.ghostsDestroyed + 1,
          st.visualEffects ++ [VisualEffect.newExplosion g.position],
          st.marks, true⟩ htl
      refine ⟨?_, ?_, ?_, ?_, ?_, ?_⟩
      · rw [hk]; simp [hc]
      · rw [hsc]; simp [List.countP_cons, hc]; push_cast; ring
      · rw [hgd]; simp [List.countP_cons, hc]; push_cast; ring
      · rw [hlv]; simp [List.countP_cons, hc, fdiv_hundred]
        push_cast
        split_ifs <;> omega
      · exact hmk
      · rw [hht]; simp [hc]
    · have hstep : Game.hitGhostStep p st g =
          ⟨st.kept ++ [g], st.score, st.lives, st.ghostsDestroyed,
            st.visualEffects, st.marks, st.hit⟩ := by
        simp [Game.hitGhostStep, hc]
      rw [hstep]
      obtain ⟨hk, hsc, hgd, hlv, hmk, hht⟩ := hitFold_normal1 p gs
        ⟨st.kept ++ [g], st.score, st.lives, st.ghostsDestroyed,
          st.visualEffects, st.marks, st.hit⟩ htl
      refine ⟨?_, ?_, ?_, ?_, ?_, ?_⟩
      · rw [hk]; simp [hc]
      · rw [hsc]; simp [List.countP_cons, hc]
      · rw [hgd]; simp [List.countP_cons, hc]
      · rw [hlv]; simp [List.countP_cons, hc]
      · exact hmk
      · rw [hht]; simp [hc]

/-- C2 (counterexample): one projectile overlapping two normal ghosts in
the same frame damages both of them in the same pass — both are destroyed,
+2 kills and +20 points — refuting the claim that only the first matching
ghost in iteration order takes damage. -/
theorem projectile_single_hit_counterexample :
    overlapGame.ghosts.length = 2 ∧
    (∀ g ∈ overlapGame.ghosts,
      Game.checkProjectileGhostCollision overlapProjectile g = true) ∧
    overlapGame.checkCollisions.ghosts = [] ∧
    overlapGame.checkCollisions.ghostsDestroyed = 2 ∧
    overlapGame.checkCollisions.score = 20 := by
  refine ⟨rfl, ?_, ?_, ?_, ?_⟩ <;>
    norm_num +decide [overlapGame, overlapProjectile, baseGame,
      Game.checkCollisions, Game.collisionPass, Game.runBossExplosion,
      Game.projectilePass, Game.hitGhostStep,
      Game.checkProjectileGhostCollision, Game.destroyPoints,
      Ghost.takeDamage, Ghost.create, Projectile.create]

/-- C2 (amended): in a collision pass with a single projectile over
single-hit normal ghosts, the projectile is consumed exactly when it
overlaps at least one ghost, but every overlapping ghost in the list takes
damage (here: is destroyed) in that same pass — not only the first in
iteration order. -/
theorem projectile_damages_every_overlapped_ghost (game : Game) (p : Projectile)
    (hproj : game.projectiles = [p])
    (hall : ∀ g ∈ game.ghosts, g.variant = GhostType.normal ∧ g.hitPoints = 1) :
    game.checkCollisions.ghosts
        = game.ghosts.filter (fun g => !Game.checkProjectileGhostCollision p g) ∧
    game.checkCollisions.projectiles
        = (if game.ghosts.any (Game.checkProjectileGhostCollision p)
           then [] else [p]) ∧
    game.checkCollisions.score
        = game.score
          + 10 * (game.ghosts.countP (Game.checkProjectileGhostCollision p) : ℤ) ∧
    game.checkCollisions.ghostsDestroyed
        = game.ghostsDestroyed
          + (game.ghosts.countP (Game.checkProjectileGhostCollision p) : ℤ) := by
  obtain ⟨hk, hsc, hgd, _, hmk, hht⟩ := hitFold_normal1 p game.ghosts
    ⟨[], game.score, game.lives, game.ghostsDestroyed, game.visualEffects,
      ⟨[], none⟩, false⟩ hall
  have hpass : game.collisionPass = Game.projectilePass
      ⟨game.ghosts, [], game.score, game.lives, game.ghostsDestroyed,
        game.visualEffects, ⟨[], none⟩⟩ p := by
    unfold Game.collisionPass
    rw [hproj, List.foldl_cons, List.foldl_nil]
  have hmarks : game.collisionPass.marks = ⟨[], none⟩ := by
    rw [hpass]
    exact hmk
  have hcc := checkCollisions_no_marks game hmarks
  refine ⟨?_, ?_, ?_, ?_⟩
  · rw [hcc]
    show game.collisionPass.ghosts = _
    rw [hpass]
    exact hk.trans (List.nil_append _)
  · rw [hcc]
    show game.collisionPass.keptProjectiles = _
    rw [hpass]
    show [] ++ (if (List.foldl (Game.hitGhostStep p)
        ⟨[], game.score, game.lives, game.ghostsDestroyed, game.visualEffects,
          ⟨[], none⟩, false⟩ game.ghosts).hit then [] else [p]) = _
    rw [hht]
    simp
  · rw [hcc]
    show game.collisionPass.score = _
    rw [hpass]
    exact hsc
  · rw [hcc]
    show game.collisionPass.ghostsDestroyed = _
    rw [hpass]
    exact hgd

/-- Witness for `projectile_damages_every_overlapped_ghost` at
`overlapGame`, `overlapProjectile`. -/
theorem projectile_damages_every_overlapped_ghost_witness :
    overlapGame.projectiles = [overlapProjectile] ∧
    (∀ g ∈ overlapGame.ghosts,
      g.variant = GhostType.normal ∧ g.hitPoints = 1) ∧
    (overlapGame.checkCollisions.ghosts
        = overlapGame.ghosts.filter
            (fun g => !Game.checkProjectileGhostCollision overlapProjectile g) ∧
     overlapGame.checkCollisions.projectiles
        = (if overlapGame.ghosts.any
              (Game.checkProjectileGhostCollision overlapProjectile)
           then [] else [overlapProjectile]) ∧
     overlapGame.checkCollisions.score
        = overlapGame.score + 10 * (overlapGame.ghosts.countP
            (Game.checkProjectileGhostCollision overlapProjectile) : ℤ) ∧
     overlapGame.checkCollisions.ghostsDestroyed
        = overlapGame.ghostsDestroyed + (overlapGame.ghosts.countP
            (Game.checkProjectileGhostCollision overlapProjectile) : ℤ)) := by
  have hall : ∀ g ∈ overlapGame.ghosts,
      g.variant = GhostType.normal ∧ g.hitPoints = 1 := by
    simp [overlapGame, baseGame, Ghost.create]
  exact ⟨rfl, hall,
    projectile_damages_every_overlapped_ghost overlapGame overlapProjectile
      rfl hall⟩


/-- A run of non-overlapping ghosts passes through the inner collision
fold untouched. -/
lemma hitFold_nocollide (p : Projectile) :
    ∀ (gs : List Ghost) (st : HitState),
      (∀ g ∈ gs, Game.checkProjectileGhostCollision p g = false) →
      gs.foldl (Game.hitGhostStep p) st = { st with kept := st.kept ++ gs }
  | [], st => fun _ => by simp
  | g :: gs, st => fun h => by
    have hg : Game.checkProjectileGhostCollision p g = false := h g (by simp)
    have htl : ∀ g' ∈ gs, Game.checkProjectileGhostCollision p g' = false :=
      fun g' hg' => h g' (by simp [hg'])
    rw [List.foldl_cons]
    have hstep : Game.hitGhostStep p st g = { st with kept := st.kept ++ [g] } := by
      simp [Game.hitGhostStep, hg]
    rw [hstep, hitFold_nocollide p gs _ htl]
    simp

/-- C1: when the frame's only projectile destroys a boss ghost while the
other on-screen ghosts are not hit, the whole resolution removes every
ghost, consumes the projectile, adds 100 points for the boss plus 20 per
chained ghost, counts 1 plus the number of chained ghosts, and grants the
boss kill's own per-100 life check plus the aggregate
`⌊gd_after/100⌋ − ⌊gd_before/100⌋` lives for the chained kills, so a chain
crossing several multiples of 100 grants several lives at once. -/
theorem boss_chain_resolution (game : Game) (p : Projectile) (b : Ghost)
    (l1 l2 : List Ghost)
    (hproj : game.projectiles = [p])
    (hghosts : game.ghosts = l1 ++ b :: l2)
    (hvar : b.variant = GhostType.boss)
    (hhp : b.hitPoints = 1)
    (hcb : Game.checkProjectileGhostCollision p b = true)
    (hno : ∀ g ∈ l1 ++ l2, Game.checkProjectileGhostCollision p g = false) :
    game.checkCollisions.ghosts = [] ∧
    game.checkCollisions.projectiles = [] ∧
    game.checkCollisions.score
        = game.score + 100 + 20 * ((l1.length : ℤ) + l2.length) ∧
    game.checkCollisions.ghostsDestroyed
        = game.ghostsDestroyed + 1 + ((l1.length : ℤ) + l2.length) ∧
    game.checkCollisions.lives
        = game.lives
          + (if (game.ghostsDestroyed + 1) % 100 = 0 then 1 else 0)
          + (Int.fdiv (game.ghostsDestroyed + 1 + ((l1.length : ℤ) + l2.length)) 100
             - Int.fdiv (game.ghostsDestroyed + 1) 100) := by
  have hno1 : ∀ g ∈ l1, Game.checkProjectileGhostCollision p g = false :=
    fun g hg => hno g (List.mem_append.mpr (Or.inl hg))
  have hno2 : ∀ g ∈ l2, Game.checkProjectileGhostCollision p g = false :=
    fun g hg => hno g (List.mem_append.mpr (Or.inr hg))
  have hdmg : b.takeDamage = ({ b with hitPoints := 0 }, true) := by
    simp [Ghost.takeDamage, hhp, hvar]
  have e1 : game.ghosts.foldl (Game.hitGhostStep p)
        ⟨[], game.score, game.lives, game.ghostsDestroyed, game.visualEffects,
          ⟨[], none⟩, false⟩
      = (b :: l2).foldl (Game.hitGhostStep p)
        ⟨l1, game.score, game.lives, game.ghostsDestroyed, game.visualEffects,
          ⟨[], none⟩, false⟩ := by
    rw [hghosts, List.foldl_append, hitFold_nocollide p l1 _ hno1]
    exact rfl
  have hstepb : Game.hitGhostStep p
        ⟨l1, game.score, game.lives, game.ghostsDestroyed, game.visualEffects,
          ⟨[], none⟩, false⟩ b
      = ⟨l1, game.score + 100,
          (if (game.ghostsDestroyed + 1) % 100 = 0 then game.lives + 1
           else game.lives),
          game.ghostsDestroyed + 1,
          game.visualEffects ++ [VisualEffect.newExplosion b.position],
          ⟨[], some { b with hitPoints := 0 }⟩, true⟩ := by
    simp [Game.hitGhostStep, hcb, hdmg, hvar, Game.destroyPoints]
  have e2 : (b :: l2).foldl (Game.hitGhostStep p)
        ⟨l1, game.score, game.lives, game.ghostsDestroyed, game.visualEffects,
          ⟨[], none⟩, false⟩
      = l2.foldl (Game.hitGhostStep p)
        ⟨l1, game.score + 100,
          (if (game.ghostsDestroyed + 1) % 100 = 0 then game.lives + 1
           else game.lives),
          game.ghostsDestroyed + 1,
          game.visualEffects ++ [VisualEffect.newExplosion b.position],
          ⟨[], some { b with hitPoints := 0 }⟩, true⟩ := by
    rw [List.foldl_cons, hstepb]
  have e3 := hitFold_nocollide p l2
    ⟨l1, game.score + 100,
      (if (game.ghostsDestroyed + 1) % 100 = 0 then game.lives + 1
       else game.lives),
      game.ghostsDestroyed + 1,
      game.visualEffects ++ [VisualEffect.newExplosion b.position],
      ⟨[], some { b with hitPoints := 0 }⟩, true⟩ hno2
  have hfold := (e1.trans e2).trans e3
  have hpass : game.collisionPass
      = ⟨l1 ++ l2, [], game.score + 100,
          (if (game.ghostsDestroyed + 1) % 100 = 0 then game.lives + 1
           else game.lives),
          game.ghostsDestroyed + 1,
          game.visualEffects ++ [VisualEffect.newExplosion b.position],
          ⟨[], some { b with hitPoints := 0 }⟩⟩ := by
    unfold Game.collisionPass
    rw [hproj, List.foldl_cons, List.foldl_nil]
    simp only [Game.projectilePass]
    rw [hfold]
    simp
  have hmarks : game.collisionPass.marks = ⟨[], some { b with hitPoints := 0 }⟩ := by
    rw [hpass]
  have hcc := checkCollisions_boss_mark game _ hmarks
  refine ⟨?_, ?_, ?_, ?_, ?_⟩
  · rw [hcc]
    rfl
  · rw [hcc]
    show game.collisionPass.keptProjectiles = []
    rw [hpass]
  · rw [hcc]
    show game.collisionPass.score
        + ((game.collisionPass.ghosts.length : ℤ)) * 20 = _
    rw [hpass]
    push_cast [List.length_append]
    ring
  · rw [hcc]
    show game.collisionPass.ghostsDestroyed
        + (game.collisionPass.ghosts.length : ℤ) = _
    rw [hpass]
    push_cast [List.length_append]
    ring
  · rw [hcc]
    simp only [Game.handleBossGhostExplosion, hpass]
    simp only [fdiv_hundred]
    push_cast [List.length_append]
    split_ifs <;> omega

/-- Witness for `boss_chain_resolution` at `bossChainGame`. -/
theorem boss_chain_resolution_witness :
    bossChainGame.projectiles = [bossTestProjectile] ∧
    bossChainGame.ghosts
        = [Ghost.create 0 100 300 .normal] ++ bossTestGhost
          :: [Ghost.create 1 700 300 .normal] ∧
    bossTestGhost.variant = GhostType.boss ∧
    bossTestGhost.hitPoints = 1 ∧
    Game.checkProjectileGhostCollision bossTestProjectile bossTestGhost = true ∧
    (∀ g ∈ [Ghost.create 0 100 300 .normal] ++ [Ghost.create 1 700 300 .normal],
      Game.checkProjectileGhostCollision bossTestProjectile g = false) ∧
    (bossChainGame.checkCollisions.ghosts = [] ∧
     bossChainGame.checkCollisions.projectiles = [] ∧
     bossChainGame.checkCollisions.score
        = bossChainGame.score + 100
          + 20 * ((([Ghost.create 0 100 300 .normal] : List Ghost).length : ℤ)
              + ([Ghost.create 1 700 300 .normal] : List Ghost).length) ∧
     bossChainGame.checkCollisions.ghostsDestroyed
        = bossChainGame.ghostsDestroyed + 1
          + ((([Ghost.create 0 100 300 .normal] : List Ghost).length : ℤ)
              + ([Ghost.create 1 700 300 .normal] : List Ghost).length) ∧
     bossChainGame.checkCollisions.lives
        = bossChainGame.lives
          + (if (bossChainGame.ghostsDestroyed + 1) % 100 = 0 then 1 else 0)
          + (Int.fdiv (bossChainGame.ghostsDestroyed + 1
                + ((([Ghost.create 0 100 300 .normal] : List Ghost).length : ℤ)
                  + ([Ghost.create 1 700 300 .normal] : List Ghost).length)) 100
             - Int.fdiv (bossChainGame.ghostsDestroyed + 1) 100)) := by
  have hcb : Game.checkProjectileGhostCollision bossTestProjectile bossTestGhost
      = true := by
    norm_num [Game.checkProjectileGhostCollision, bossTestProjectile,
      bossTestGhost, Ghost.create, Projectile.create, bossWidth, bossHeight]
  have hno : ∀ g ∈ [Ghost.create 0 100 300 .normal]
        ++ [Ghost.create 1 700 300 .normal],
      Game.checkProjectileGhostCollision bossTestProjectile g = false := by
    norm_num [Game.checkProjectileGhostCollision, bossTestProjectile,
      Ghost.create, Projectile.create]
  exact ⟨rfl, rfl, rfl, rfl, hcb, hno,
    boss_chain_resolution bossChainGame bossTestProjectile bossTestGhost
      [Ghost.create 0 100 300 .normal] [Ghost.create 1 700 300 .normal]
      rfl rfl rfl rfl hcb hno⟩


end GhostInvaders
